import Mathlib

/-!
Verification of the layered filesystem build tool (build_fs.py, copytarget.py,
utils.py) against its natural-language specification.

The Python sources are shallowly embedded: pure computations become Lean
functions over `Nat`/`Int` (Python integers are unbounded, so no modular
arithmetic is needed); the exact rational arithmetic that the source performs
through floats on power-of-two ratios is modelled by exact ceiling division;
mutable dictionaries become association lists with Python `dict` semantics
(first-match lookup, in-place value replacement, append of new keys);
`sys.exit`/uncaught exceptions become `Except`-style error values.
-/

namespace BuildFS

/-- Ceiling division on naturals: `ceilDiv a b = ⌈a / b⌉` for `b > 0`.
Models `math.ceil` applied to an exact quotient. -/
def ceilDiv (a b : Nat) : Nat := (a + b - 1) / b

theorem ceilDiv_le_ceilDiv {a a' : Nat} (b : Nat) (h : a ≤ a') :
    ceilDiv a b ≤ ceilDiv a' b := by
  unfold ceilDiv
  exact Nat.div_le_div_right (Nat.sub_le_sub_right (Nat.add_le_add_right h b) 1)

/-! ## Capacity Planner (`ExtImage`, `EXT_DATA` in build_fs.py) -/

/-- One row of the `EXT_DATA` table of build_fs.py: category number,
inclusive `[min_size, max_size]` byte range (`max_size = -1` marks the
top row), usage type, block size, byte/inode ratio, inode size and
journal block count. -/
structure CategoryData where
  category : Nat
  min_size : Nat
  max_size : Int
  usage_type : String
  block_size : Nat
  byte_inode_ratio : Nat
  inode_size : Nat
  journal_blocks : Nat
deriving Repr, DecidableEq

/-- The `EXT_DATA` table, transcribed row by row from build_fs.py. -/
def EXT_DATA : List CategoryData :=
  [⟨1, 65536, 2097151, "floppy", 4096, 8192, 128, 0⟩,
   ⟨2, 2097152, 3145727, "floppy", 4096, 8192, 128, 1024⟩,
   ⟨3, 3145728, 33554431, "small", 4096, 4096, 128, 1024⟩,
   ⟨4, 33554432, 268435455, "small", 4096, 4096, 128, 4096⟩,
   ⟨5, 268435456, 536870911, "small", 4096, 4096, 128, 8192⟩,
   ⟨6, 536870912, 1073741823, "default", 4096, 16384, 256, 4096⟩,
   ⟨7, 1073741824, 2147483647, "default", 4096, 16384, 256, 8192⟩,
   ⟨8, 2147483648, 4294967295, "default", 4096, 16384, 256, 16384⟩,
   ⟨9, 4294967296, 4398046511103, "default", 4096, 16384, 256, 32768⟩,
   ⟨10, 4398046511104, 17592186044415, "big", 4096, 32768, 256, 32768⟩,
   ⟨11, 17592186044416, -1, "huge", 4096, 65536, 256, 32768⟩]

/-- `sys.maxsize` on the 64-bit CPython the tool runs on: `2^63 - 1`.
`ExtImage.get_ext_category_data` substitutes it for a non-positive
`max_size` before the range test. -/
def sysMaxsize : Nat := 9223372036854775807

/-- The effective upper bound of a category row:
`max_size` if positive, else `sys.maxsize`. -/
def effMax (c : CategoryData) : Nat :=
  if c.max_size > 0 then c.max_size.toNat else sysMaxsize

/-- The range test of `ExtImage.get_ext_category_data`:
`size >= min_size and size <= max_size`. -/
def catMatches (size : Nat) (c : CategoryData) : Prop :=
  c.min_size ≤ size ∧ size ≤ effMax c

instance (size : Nat) (c : CategoryData) : Decidable (catMatches size c) :=
  inferInstanceAs (Decidable (_ ∧ _))

/-- `ExtImage.get_ext_category_data`: scan the category rows in table
order (class `get_category_dict` keys the rows by their distinct category
numbers, so dict iteration preserves row order) and return the first row
whose inclusive range contains `size`; `None` when no row matches. -/
def get_ext_category_data (size : Nat) : Option CategoryData :=
  EXT_DATA.find? (fun c => decide (catMatches size c))

/-- The arithmetic of the `ExtImage.tree_blocks` setter.  The reserve
fraction (a Python float parameter, `0.1` by default) is modelled as the
exact rational `rn / rd`, so `math.ceil((1 + reserve) * total_blocks)`
becomes `ceilDiv ((rd + rn) * tb) rd`; the inode count
`math.ceil(total_blocks * block_size * (1 / byte_inode_ratio))` is exact
ceiling division because every `block_size / byte_inode_ratio` in
`EXT_DATA` is a power of two and hence exact in double precision. -/
def computeTotalBlocks (cat : CategoryData) (rn rd : Nat) (tb : Nat) : Nat :=
  let withReserve := ceilDiv ((rd + rn) * tb) rd
  let withJournal := withReserve + 2 * cat.journal_blocks
  let total_inodes := ceilDiv (withJournal * cat.block_size) cat.byte_inode_ratio
  let total_inode_blocks := ceilDiv (total_inodes * cat.inode_size) cat.block_size
  withJournal + total_inode_blocks

/-- Errors observable from the embedded Python code: an uncaught
`AttributeError` (attribute lookup on a name the object does not bind),
an uncaught `TypeError` (e.g. subscripting `None`), and the tool's own
`raise_error_and_exit` with its message. -/
inductive PyError where
  | attributeError (name : String)
  | typeError (msg : String)
  | exitError (msg : String)
deriving Repr, DecidableEq

/-- Names of the integer-valued instance attributes an `ExtImage`
binds by the time its `tree_blocks` setter runs (transcribed from the
assignments in `ExtImage.__init__` before `self.tree_blocks = tree_blocks`,
plus the mangled private field the setter itself assigns), with their
values.  `Image.__init__` (`image_path`, `noblks`, `input_stream`, `bs`)
has not yet run on the constructor path; its names are listed in
`extImageOtherAttrs` so that later re-assignments of `tree_blocks`
resolve the same lookups identically. -/
def extImageIntAttrs (cat : CategoryData) (final_size tb : Nat) :
    List (String × Int) :=
  [("final_size", (final_size : Int)),
   ("block_size", (cat.block_size : Int)),
   ("byte_inode_ratio", (cat.byte_inode_ratio : Int)),
   ("inode_size", (cat.inode_size : Int)),
   ("journal_blocks", (cat.journal_blocks : Int)),
   ("journal_size", (ceilDiv (cat.journal_blocks * cat.block_size) 1048576 : Int)),
   ("_ExtImage__tree_blocks", (tb : Int))]

/-- Every other attribute name bound on an `ExtImage` instance or its
class body (non-integer instance attributes, methods, properties and
classmethods, including those inherited from `Image`), transcribed from
the source.  `"total_blocks"` appears nowhere in the class. -/
def extImageOtherAttrs : List String :=
  ["fs_type", "reserve", "usage_type", "inode_byte_ratio",
   "image_path", "noblks", "input_stream", "bs",
   "tree_blocks", "create_image", "get_ext_category_data",
   "get_category_dict", "get_blocks"]

/-- Python attribute lookup of an integer attribute on an `ExtImage`
instance at `tree_blocks`-setter time: a bound integer attribute yields
its value; a bound non-integer attribute would yield a non-integer (never
exercised by the setter); an unbound name raises `AttributeError`. -/
def extImageGetattrInt (cat : CategoryData) (final_size tb : Nat)
    (name : String) : Except PyError Int :=
  match (extImageIntAttrs cat final_size tb).lookup name with
  | some v => Except.ok v
  | none =>
    if extImageOtherAttrs.contains name then
      Except.error (PyError.typeError name)
    else
      Except.error (PyError.attributeError name)

/-- The overage message template of the `tree_blocks` setter. -/
def overageMessage (treeSize metaSize : Int) (finalSize : Nat) : String :=
  "Target filesystem tree size " ++ toString treeSize ++
  "B + metadata size " ++ toString metaSize ++
  "B is larger than specified ImageSize " ++ toString finalSize ++ "B. "

/-- The `ExtImage.tree_blocks` setter: compute the required block count,
and when `final_size < total_blocks * block_size` build the overage
message — whose metadata term reads `self.total_blocks`, an attribute
lookup — and pass it to `raise_error_and_exit`; otherwise store the
result in `noblks`. -/
def tree_blocks_setter (cat : CategoryData) (rn rd : Nat)
    (final_size value : Nat) : Except PyError Nat :=
  let total_blocks := computeTotalBlocks cat rn rd value
  let total_size := total_blocks * cat.block_size
  if final_size < total_size then
    match extImageGetattrInt cat final_size value "total_blocks" with
    | Except.error e => Except.error e
    | Except.ok v =>
        Except.error (PyError.exitError
          (overageMessage ((value : Int) * cat.block_size)
            ((v - (value : Int)) * cat.block_size) final_size))
  else
    Except.ok total_blocks

/-- `ExtImage.__init__`: select the category for the declared final
size — subscripting the `None` returned for an uncovered size raises
`TypeError` — then run the `tree_blocks` setter.  On success the
resulting `noblks` is returned. -/
def extImageInit (final_size tb : Nat) (rn rd : Nat) : Except PyError Nat :=
  match get_ext_category_data final_size with
  | none => Except.error (PyError.typeError "NoneType object is not subscriptable")
  | some cat => tree_blocks_setter cat rn rd final_size tb

end BuildFS

namespace BuildFS

/-- The `EXT_DATA` ranges are pairwise disjoint: no size matches two
distinct rows. -/
theorem ext_data_ranges_disjoint (size : Nat) :
    ∀ c1 ∈ EXT_DATA, ∀ c2 ∈ EXT_DATA,
      catMatches size c1 → catMatches size c2 → c1 = c2 := by
  intro c1 h1 c2 h2 m1 m2
  simp only [EXT_DATA, List.mem_cons, List.not_mem_nil, or_false] at h1 h2
  obtain ⟨a1, b1⟩ := m1
  obtain ⟨a2, b2⟩ := m2
  rcases h1 with rfl|rfl|rfl|rfl|rfl|rfl|rfl|rfl|rfl|rfl|rfl <;>
    rcases h2 with rfl|rfl|rfl|rfl|rfl|rfl|rfl|rfl|rfl|rfl|rfl <;>
    first
      | rfl
      | (exfalso
         simp only [effMax, sysMaxsize] at b1 b2
         norm_num at a1 a2 b1 b2
         try omega)

/-- C1 (code bug): on the Capacity Planner failure path the required
size does exceed the declared final size (second conjunct), but instead
of emitting the message naming the computed overage, the embedded
`tree_blocks` setter raises `AttributeError` on `total_blocks`, because
the message template reads `self.total_blocks` and no attribute of that
name is ever bound on the object.  Concrete failing input: declared
final size 65536 bytes (category 1), tree of 100 blocks, reserve 1/10. -/
theorem C1_overage_path_raises_attribute_error :
    extImageInit 65536 100 1 10 =
      Except.error (PyError.attributeError "total_blocks") ∧
    65536 <
      computeTotalBlocks ⟨1, 65536, 2097151, "floppy", 4096, 8192, 128, 0⟩
        1 10 100 * 4096 := by
  exact ⟨rfl, by norm_num [computeTotalBlocks, ceilDiv]⟩

/-- C8: for fixed category parameters (any row, any exact reserve
fraction `rn/rd`) the required block count is non-decreasing in the tree
block count; and every declared final size lying exactly on a row's
lower boundary selects that row, not the adjacent lower one. -/
theorem C8_capacity_monotone_and_boundary_selection :
    (∀ (cat : CategoryData) (rn rd tb tb' : Nat), tb ≤ tb' →
        computeTotalBlocks cat rn rd tb ≤ computeTotalBlocks cat rn rd tb') ∧
    (∀ c ∈ EXT_DATA, get_ext_category_data c.min_size = some c) := by
  constructor
  · intro cat rn rd tb tb' h
    unfold computeTotalBlocks
    have h1 : ceilDiv ((rd + rn) * tb) rd ≤ ceilDiv ((rd + rn) * tb') rd :=
      ceilDiv_le_ceilDiv rd (Nat.mul_le_mul_left _ h)
    have h2 : ceilDiv ((rd + rn) * tb) rd + 2 * cat.journal_blocks ≤
        ceilDiv ((rd + rn) * tb') rd + 2 * cat.journal_blocks :=
      Nat.add_le_add_right h1 _
    have h3 := ceilDiv_le_ceilDiv cat.byte_inode_ratio
      (Nat.mul_le_mul_right cat.block_size h2)
    have h4 := ceilDiv_le_ceilDiv cat.block_size
      (Nat.mul_le_mul_right cat.inode_size h3)
    exact Nat.add_le_add h2 h4
  · decide

/-- Witness for C8 at category 6 parameters, reserve 1/10, tree sizes
1000 ≤ 2000, and the boundary 2097152 which selects category 2. -/
theorem C8_witness :
    computeTotalBlocks ⟨6, 536870912, 1073741823, "default", 4096, 16384, 256, 4096⟩
        1 10 1000 ≤
      computeTotalBlocks ⟨6, 536870912, 1073741823, "default", 4096, 16384, 256, 4096⟩
        1 10 2000 ∧
    get_ext_category_data 2097152 =
      some ⟨2, 2097152, 3145727, "floppy", 4096, 8192, 128, 1024⟩ :=
  ⟨C8_capacity_monotone_and_boundary_selection.1 _ 1 10 1000 2000 (by norm_num),
   C8_capacity_monotone_and_boundary_selection.2
     ⟨2, 2097152, 3145727, "floppy", 4096, 8192, 128, 1024⟩ (by decide)⟩

/-- C10 counterexample: the top row's upper bound is `sys.maxsize`, not
unbounded, so the declared final size `2^63` is at least 65536 yet
matches no row and category selection returns `None`. -/
theorem C10_counterexample_no_row_above_maxsize :
    65536 ≤ 9223372036854775808 ∧
    get_ext_category_data 9223372036854775808 = none ∧
    EXT_DATA.countP (fun c => decide (catMatches 9223372036854775808 c)) = 0 := by
  exact ⟨by norm_num, rfl, rfl⟩

/-- C10 (amended): for declared final sizes between the smallest table
minimum 65536 and `sys.maxsize` exactly one row matches and selection
returns it; below 65536 every row's range test fails, `None` is
returned, and `ExtImage.__init__` fails by subscripting `None` — an
unhandled `TypeError`, not a named capacity error. -/
theorem C10_category_selection_partial_at_low_end :
    (∀ size : Nat, 65536 ≤ size → size ≤ sysMaxsize →
      ∃ c, get_ext_category_data size = some c ∧
        ∀ c' ∈ EXT_DATA, catMatches size c' → c' = c) ∧
    (∀ size tb rn rd : Nat, size < 65536 →
      extImageInit size tb rn rd =
        Except.error (PyError.typeError "NoneType object is not subscriptable")) := by
  constructor
  · intro size h1 h2
    have hcase : (65536 ≤ size ∧ size ≤ 2097151) ∨
        (2097152 ≤ size ∧ size ≤ 3145727) ∨
        (3145728 ≤ size ∧ size ≤ 33554431) ∨
        (33554432 ≤ size ∧ size ≤ 268435455) ∨
        (268435456 ≤ size ∧ size ≤ 536870911) ∨
        (536870912 ≤ size ∧ size ≤ 1073741823) ∨
        (1073741824 ≤ size ∧ size ≤ 2147483647) ∨
        (2147483648 ≤ size ∧ size ≤ 4294967295) ∨
        (4294967296 ≤ size ∧ size ≤ 4398046511103) ∨
        (4398046511104 ≤ size ∧ size ≤ 17592186044415) ∨
        (17592186044416 ≤ size ∧ size ≤ sysMaxsize) := by
      unfold sysMaxsize at h2 ⊢
      omega
    have hs : (get_ext_category_data size).isSome := by
      rw [get_ext_category_data, List.find?_isSome]
      rcases hcase with ⟨ha, hb⟩|⟨ha, hb⟩|⟨ha, hb⟩|⟨ha, hb⟩|⟨ha, hb⟩|⟨ha, hb⟩|
        ⟨ha, hb⟩|⟨ha, hb⟩|⟨ha, hb⟩|⟨ha, hb⟩|⟨ha, hb⟩ <;>
        (unfold sysMaxsize at hb
         first
          | exact ⟨⟨1, 65536, 2097151, "floppy", 4096, 8192, 128, 0⟩, by decide,
              by simp only [catMatches, effMax, sysMaxsize, decide_eq_true_eq]; norm_num; omega⟩
          | exact ⟨⟨2, 2097152, 3145727, "floppy", 4096, 8192, 128, 1024⟩, by decide,
              by simp only [catMatches, effMax, sysMaxsize, decide_eq_true_eq]; norm_num; omega⟩
          | exact ⟨⟨3, 3145728, 33554431, "small", 4096, 4096, 128, 1024⟩, by decide,
              by simp only [catMatches, effMax, sysMaxsize, decide_eq_true_eq]; norm_num; omega⟩
          | exact ⟨⟨4, 33554432, 268435455, "small", 4096, 4096, 128, 4096⟩, by decide,
              by simp only [catMatches, effMax, sysMaxsize, decide_eq_true_eq]; norm_num; omega⟩
          | exact ⟨⟨5, 268435456, 536870911, "small", 4096, 4096, 128, 8192⟩, by decide,
              by simp only [catMatches, effMax, sysMaxsize, decide_eq_true_eq]; norm_num; omega⟩
          | exact ⟨⟨6, 536870912, 1073741823, "default", 4096, 16384, 256, 4096⟩, by decide,
              by simp only [catMatches, effMax, sysMaxsize, decide_eq_true_eq]; norm_num; omega⟩
          | exact ⟨⟨7, 1073741824, 2147483647, "default", 4096, 16384, 256, 8192⟩, by decide,
              by simp only [catMatches, effMax, sysMaxsize, decide_eq_true_eq]; norm_num; omega⟩
          | exact ⟨⟨8, 2147483648, 4294967295, "default", 4096, 16384, 256, 16384⟩, by decide,
              by simp only [catMatches, effMax, sysMaxsize, decide_eq_true_eq]; norm_num; omega⟩
          | exact ⟨⟨9, 4294967296, 4398046511103, "default", 4096, 16384, 256, 32768⟩, by decide,
              by simp only [catMatches, effMax, sysMaxsize, decide_eq_true_eq]; norm_num; omega⟩
          | exact ⟨⟨10, 4398046511104, 17592186044415, "big", 4096, 32768, 256, 32768⟩, by decide,
              by simp only [catMatches, effMax, sysMaxsize, decide_eq_true_eq]; norm_num; omega⟩
          | exact ⟨⟨11, 17592186044416, -1, "huge", 4096, 65536, 256, 32768⟩, by decide,
              by simp only [catMatches, effMax, sysMaxsize, decide_eq_true_eq]; norm_num; omega⟩)
    obtain ⟨c, hc⟩ := Option.isSome_iff_exists.mp hs
    have hc' := hc
    unfold get_ext_category_data at hc'
    have hp := @List.find?_some _ _ _ _ hc'
    simp only [decide_eq_true_eq] at hp
    exact ⟨c, hc, fun c'' hmem hm =>
      ext_data_ranges_disjoint size c'' hmem c (List.mem_of_find?_eq_some hc') hm hp⟩
  · intro size tb rn rd h
    unfold extImageInit
    have hnone : get_ext_category_data size = none := by
      apply List.find?_eq_none.mpr
      intro c hc
      simp only [EXT_DATA, List.mem_cons, List.not_mem_nil, or_false] at hc
      rcases hc with rfl|rfl|rfl|rfl|rfl|rfl|rfl|rfl|rfl|rfl|rfl <;>
        (simp only [catMatches, effMax, sysMaxsize, decide_eq_true_eq,
           not_and, not_le]
         norm_num
         omega)
    rw [hnone]

/-- Witness for C10 (amended): final size 3145728 selects category 3
uniquely; final size 4096 makes construction fail with the `TypeError`. -/
theorem C10_witness :
    (∃ c, get_ext_category_data 3145728 = some c ∧
      ∀ c' ∈ EXT_DATA, catMatches 3145728 c' → c' = c) ∧
    extImageInit 4096 7 1 10 =
      Except.error (PyError.typeError "NoneType object is not subscriptable") :=
  ⟨C10_category_selection_partial_at_low_end.1 3145728 (by norm_num) (by norm_num [sysMaxsize]),
   C10_category_selection_partial_at_low_end.2 4096 7 1 10 (by norm_num)⟩

end BuildFS

namespace BuildFS

/-! ## Python dict model: association lists, first-match lookup,
in-place replacement, append of fresh keys, pop of present keys. -/

/-- `d[k] = v` on a Python dict: replace the value in place when the key
exists, else append the pair at the end. -/
def dictSet {β : Type} (d : List (String × β)) (k : String) (v : β) :
    List (String × β) :=
  match d with
  | [] => [(k, v)]
  | (k', v') :: rest =>
    if k' = k then (k, v) :: rest else (k', v') :: dictSet rest k v

/-- `d.pop(k)` (the removal part): drop the first pair with key `k`. -/
def dictRemove {β : Type} (d : List (String × β)) (k : String) :
    List (String × β) :=
  match d with
  | [] => []
  | (k', v') :: rest =>
    if k' = k then rest else (k', v') :: dictRemove rest k

theorem lookup_cons_self {β : Type} (a : String) (b : β)
    (es : List (String × β)) : ((a, b) :: es).lookup a = some b := by
  simp

theorem lookup_cons_ne {β : Type} {a k : String} (b : β)
    (es : List (String × β)) (h : k ≠ a) :
    ((a, b) :: es).lookup k = es.lookup k := by
  simp only [List.lookup]
  rw [show (k == a) = false from by simp [h]]

theorem lookup_dictSet_self {β : Type} (d : List (String × β)) (k : String)
    (v : β) : List.lookup k (dictSet d k v) = some v := by
  induction d with
  | nil => simp [dictSet]
  | cons p rest ih =>
    obtain ⟨k', v'⟩ := p
    by_cases h : k' = k
    · simp [dictSet, h]
    · rw [dictSet, if_neg h, lookup_cons_ne _ _ (fun he => h he.symm)]
      exact ih

theorem lookup_dictSet_ne {β : Type} (d : List (String × β)) {k k' : String}
    (v : β) (h : k' ≠ k) :
    List.lookup k' (dictSet d k v) = List.lookup k' d := by
  induction d with
  | nil => simp [dictSet, lookup_cons_ne _ _ h]
  | cons p rest ih =>
    obtain ⟨k0, v0⟩ := p
    by_cases h0 : k0 = k
    · subst h0
      rw [dictSet, if_pos rfl, lookup_cons_ne _ _ h, lookup_cons_ne _ _ h]
    · rw [dictSet, if_neg h0]
      by_cases h1 : k' = k0
      · subst h1
        rw [lookup_cons_self, lookup_cons_self]
      · rw [lookup_cons_ne _ _ h1, lookup_cons_ne _ _ h1]
        exact ih

theorem lookup_dictRemove_ne {β : Type} (d : List (String × β))
    {k k' : String} (h : k' ≠ k) :
    List.lookup k' (dictRemove d k) = List.lookup k' d := by
  induction d with
  | nil => simp [dictRemove]
  | cons p rest ih =>
    obtain ⟨k0, v0⟩ := p
    by_cases h0 : k0 = k
    · subst h0
      rw [dictRemove, if_pos rfl, lookup_cons_ne _ _ h]
    · rw [dictRemove, if_neg h0]
      by_cases h1 : k' = k0
      · subst h1
        rw [lookup_cons_self, lookup_cons_self]
      · rw [lookup_cons_ne _ _ h1, lookup_cons_ne _ _ h1]
        exact ih

/-! ## Size Budget Ledger file records (`FileSizeRecords` in copytarget.py) -/

/-- One module record of the copytarget ledger: cumulative size, limit
(`"unknown"` modelled as `none`), file count and per-file sizes. -/
structure CTModule where
  moduleSize : Int
  moduleSizeLimit : Option Int
  numberOfFiles : Int
  files : List (String × Int)
deriving Repr, DecidableEq

/-- The in-memory ledger of `FileSizeRecords`: `fileSizeDict` totals and
modules, plus the flat `fileRecordsDict` index `destination ↦ (module, size)`. -/
structure CTState where
  totalFSSize : Int
  totalFSSizeLimit : Option Int
  totalNumberOfFiles : Int
  modules : List (String × CTModule)
  fileRecordsDict : List (String × (String × Int))
deriving Repr, DecidableEq

/-- `FileSizeRecords.removeFile`.  `low` models Python `str.lower`,
`norm` models `CopyTarget.normpath`; both are applied to the arguments as
in the source.  The `try` block is modelled step by step: a `KeyError`
on either `pop` aborts the remaining mutations but keeps the ones already
performed (in particular, when the module's `files` entry was popped but
the `fileRecordsDict` entry is missing, the totals are left undecremented). -/
def removeFile (low norm : String → String) (st : CTState)
    (destination0 module0 : String) : CTState :=
  let module := low module0
  let destination := norm destination0
  match List.lookup module st.modules with
  | none => st
  | some mr =>
    match List.lookup destination mr.files with
    | none => st
    | some size =>
      let mr1 := { mr with files := dictRemove mr.files destination }
      let st1 := { st with modules := dictSet st.modules module mr1 }
      match List.lookup destination st1.fileRecordsDict with
      | none => st1
      | some _rec =>
        let st2 := { st1 with
          fileRecordsDict := dictRemove st1.fileRecordsDict destination }
        let mr2 := { mr1 with
          moduleSize := mr1.moduleSize - size,
          numberOfFiles := mr1.numberOfFiles - 1 }
        { st2 with
          totalFSSize := st2.totalFSSize - size,
          totalNumberOfFiles := st2.totalNumberOfFiles - 1,
          modules := dictSet st2.modules module mr2 }

/-- `KeyError` is added to the observable Python errors for dictionary
subscripts on missing keys outside any `try`. -/
inductive PyError2 where
  | keyError (key : String)
  | exitError (msg : String)
deriving Repr, DecidableEq

/-- `FileSizeRecords.addFile`.  `size0 = none` models the `size=None`
default, in which case the source file is consulted: a directory (that
is not a symlink) aborts the process, otherwise `os.lstat(source).st_size`
(parameter `sourceLstatSize`) is used.  A destination already present in
`fileRecordsDict` is first removed through `removeFile` with its recorded
module, then the new entry is added to all totals and indexes. -/
def addFile (low norm : String → String) (st : CTState)
    (destination0 module0 : String) (size0 : Option Int)
    (sourceIsDirNotLink : Bool) (sourceLstatSize : Int) :
    Except PyError2 CTState := do
  let module := low module0
  let destination := norm destination0
  let st1 :=
    if (List.lookup module st.modules).isSome then st
    else { st with modules := dictSet st.modules module ⟨0, none, 0, []⟩ }
  let size ← (match size0 with
    | none =>
        if sourceIsDirNotLink then
          Except.error (PyError2.exitError
            "addFile() function in FileSizeRecords can only accept files.")
        else pure sourceLstatSize
    | some s => pure s)
  let st2 :=
    match List.lookup destination st1.fileRecordsDict with
    | some r => removeFile low norm st1 destination r.1
    | none => st1
  let mr ← (match List.lookup module st2.modules with
    | some mr => pure mr
    | none => Except.error (PyError2.keyError module))
  let mr' := { mr with
    moduleSize := mr.moduleSize + size,
    numberOfFiles := mr.numberOfFiles + 1,
    files := dictSet mr.files destination size }
  pure { st2 with
    totalFSSize := st2.totalFSSize + size,
    totalNumberOfFiles := st2.totalNumberOfFiles + 1,
    modules := dictSet st2.modules module mr',
    fileRecordsDict := dictSet st2.fileRecordsDict destination (module, size) }

end BuildFS

namespace BuildFS

theorem dictSet_nil {β : Type} (k : String) (v : β) :
    dictSet ([] : List (String × β)) k v = [(k, v)] := rfl

theorem dictSet_dictSet {β : Type} (d : List (String × β)) (k : String)
    (v w : β) : dictSet (dictSet d k v) k w = dictSet d k w := by
  induction d with
  | nil => simp [dictSet]
  | cons p rest ih =>
    obtain ⟨k0, v0⟩ := p
    by_cases h : k0 = k
    · simp [dictSet, h]
    · simp [dictSet, h, ih]

theorem dictRemove_cons_self {β : Type} (k : String) (v : β)
    (d : List (String × β)) : dictRemove ((k, v) :: d) k = d := by
  simp [dictRemove]

theorem dictRemove_dictSet {β : Type} (d : List (String × β)) (k : String)
    (v : β) : dictRemove (dictSet d k v) k = dictRemove d k := by
  induction d with
  | nil => simp [dictSet, dictRemove]
  | cons p rest ih =>
    obtain ⟨k0, v0⟩ := p
    by_cases h : k0 = k
    · simp [dictSet, dictRemove, h]
    · simp [dictSet, dictRemove, h, ih]

theorem dictRemove_of_lookup_none {β : Type} {d : List (String × β)}
    {k : String} (h : List.lookup k d = none) : dictRemove d k = d := by
  induction d with
  | nil => rfl
  | cons p rest ih =>
    obtain ⟨k0, v0⟩ := p
    by_cases h0 : k0 = k
    · subst h0
      rw [lookup_cons_self] at h
      exact absurd h (by simp)
    · rw [List.lookup, show (k == k0) = false from
        beq_eq_false_iff_ne.mpr (Ne.symm h0)] at h
      rw [dictRemove, if_neg h0, ih h]

/-- Python `str.lower` restricted to the ASCII strings the ledger
handles (module names). -/
def pyLower (s : String) : String := String.mk (s.data.map Char.toLower)

/-- C4: recording the same destination path again through
`FileSizeRecords.addFile` replaces the prior entry: starting from any
ledger in which `fileA` is unrecorded and module `modX` absent, recording
`(fileA, modX, 100)` and then `(fileA, modX, 150)` leaves the module at
size 150 with one file recorded at size 150, the grand total increased by
exactly 150, and the global file count increased by exactly 1.  `low` and
`norm` abstract `str.lower` and `CopyTarget.normpath`; the hypotheses ask
only that they are idempotent on the two argument strings, as the real
functions are. -/
theorem C4_addFile_replaces_prior_entry (low norm : String → String)
    (st : CTState)
    (hnorm : norm (norm "fileA") = norm "fileA")
    (hlow : low (low "modX") = low "modX")
    (hd : List.lookup (norm "fileA") st.fileRecordsDict = none)
    (hm : List.lookup (low "modX") st.modules = none) :
    ∃ stA stB,
      addFile low norm st "fileA" "modX" (some 100) false 0 = Except.ok stA ∧
      addFile low norm stA "fileA" "modX" (some 150) false 0 = Except.ok stB ∧
      (∃ mr, List.lookup (low "modX") stB.modules = some mr ∧
          mr.moduleSize = 150 ∧ mr.numberOfFiles = 1 ∧
          List.lookup (norm "fileA") mr.files = some 150) ∧
      stB.totalFSSize = st.totalFSSize + 150 ∧
      stB.totalNumberOfFiles = st.totalNumberOfFiles + 1 := by
  have e1 : addFile low norm st "fileA" "modX" (some 100) false 0 =
      Except.ok { st with
        totalFSSize := st.totalFSSize + 100,
        totalNumberOfFiles := st.totalNumberOfFiles + 1,
        modules := dictSet st.modules (low "modX")
          ⟨100, none, 1, [(norm "fileA", 100)]⟩,
        fileRecordsDict := dictSet st.fileRecordsDict (norm "fileA")
          (low "modX", 100) } := by
    simp [addFile, hm, hd, lookup_dictSet_self, dictSet_dictSet, dictSet_nil,
      bind, Except.bind, pure, Except.pure]
  have e2 : addFile low norm { st with
        totalFSSize := st.totalFSSize + 100,
        totalNumberOfFiles := st.totalNumberOfFiles + 1,
        modules := dictSet st.modules (low "modX")
          (⟨100, none, 1, [(norm "fileA", 100)]⟩ : CTModule),
        fileRecordsDict := dictSet st.fileRecordsDict (norm "fileA")
          (low "modX", 100) } "fileA" "modX" (some 150) false 0 =
      Except.ok { st with
        totalFSSize := st.totalFSSize + 100 - 100 + 150,
        totalNumberOfFiles := st.totalNumberOfFiles + 1 - 1 + 1,
        modules := dictSet st.modules (low "modX")
          ⟨100 - 100 + 150, none, 1 - 1 + 1, [(norm "fileA", 150)]⟩,
        fileRecordsDict := dictSet st.fileRecordsDict (norm "fileA")
          (low "modX", 150) } := by
    simp [addFile, removeFile, hlow, hnorm, hd, lookup_dictSet_self,
      lookup_cons_self, dictSet_dictSet, dictSet_nil, dictRemove_cons_self,
      dictRemove_dictSet, dictRemove_of_lookup_none,
      bind, Except.bind, pure, Except.pure]
  refine ⟨_, _, e1, e2, ⟨_, lookup_dictSet_self _ _ _, by norm_num, by norm_num,
    lookup_cons_self _ _ _⟩, by dsimp only; ring, by dsimp only; ring⟩

/-- Witness for C4: the empty ledger with `str.lower` and the identity
normalization (correct for the plain path `fileA`). -/
theorem C4_witness :
    ∃ stA stB,
      addFile pyLower id ⟨0, none, 0, [], []⟩ "fileA" "modX" (some 100) false 0 =
        Except.ok stA ∧
      addFile pyLower id stA "fileA" "modX" (some 150) false 0 = Except.ok stB ∧
      (∃ mr, List.lookup (pyLower "modX") stB.modules = some mr ∧
          mr.moduleSize = 150 ∧ mr.numberOfFiles = 1 ∧
          List.lookup (id "fileA") mr.files = some 150) ∧
      stB.totalFSSize = (0 : Int) + 150 ∧
      stB.totalNumberOfFiles = (0 : Int) + 1 :=
  C4_addFile_replaces_prior_entry pyLower id ⟨0, none, 0, [], []⟩
    rfl (by decide) rfl rfl

end BuildFS

namespace BuildFS

/-! ## Size Budget Ledger package recording
(`FSLeasedSpace.addDebianPackage` in build_fs.py) -/

/-- One module record of the build_fs ledger: size, limit, file count,
debian count (`none` when the key is absent from a pre-existing ledger
file; `addDebianPackage` creates it on demand), per-package and per-file
sizes. -/
structure FSModule where
  moduleSize : Int
  moduleSizeLimit : Option Int
  numberOfFiles : Int
  numberOfDebians : Option Int
  debians : List (String × Int)
  files : List (String × Int)
deriving Repr, DecidableEq

/-- The build_fs view of the ledger dict (`file_size_dict` plus
`file_records_dict`).  `totalNumberOfDebians` is `none` when the key is
absent (it is not initialized by `readTargetSizeManifest`). -/
structure FSState where
  totalFSSize : Int
  totalNumberOfFiles : Int
  totalNumberOfDebians : Option Int
  modules : List (String × FSModule)
  fileRecordsDict : List (String × (String × Int))
deriving Repr, DecidableEq

/-- `FSLeasedSpace.addDebianPackage(debian, module, size, fileList)`.
`sourceOf` abstracts `CopyTarget.normpath(filesystem_work_dir + str(file))`;
`lstatSize` abstracts the `os.path.isfile` check plus `os.lstat(...).st_size`
(`none` for paths that are not regular files); `includeDebianFiles` is the
`self.include_debian_files` flag (`False` unless configured).  A `size`
reported by dpkg-query is multiplied by 1024; when it is absent the sizes
of the package's files are summed instead.  All totals are incremented
unconditionally; only the `debians[debian]` entry is keyed. -/
def addDebianPackage (sourceOf : String → String)
    (lstatSize : String → Option Int) (includeDebianFiles : Bool)
    (st : FSState) (debian module : String) (size0 : Option Int)
    (fileList : List String) : Except PyError2 FSState := do
  let st1 :=
    if (List.lookup module st.modules).isSome then st
    else { st with
      modules := dictSet st.modules module ⟨0, none, 0, some 0, [], []⟩ }
  let acc ←
    if size0.isNone || includeDebianFiles then
      fileList.foldlM (fun (acc : FSState × Int) file => do
        let s := acc.1
        let dfs := acc.2
        let source := sourceOf file
        match lstatSize source with
        | none => pure (s, dfs)
        | some fileSize =>
          let dfs := dfs + fileSize
          if includeDebianFiles then
            let s ←
              if (List.lookup source s.fileRecordsDict).isSome then pure s
              else do
                let mr ← (match List.lookup module s.modules with
                  | some mr => pure mr
                  | none => Except.error (PyError2.keyError module))
                pure { s with
                  totalNumberOfFiles := s.totalNumberOfFiles + 1,
                  modules := dictSet s.modules module
                    { mr with numberOfFiles := mr.numberOfFiles + 1 } }
            let mr ← (match List.lookup module s.modules with
              | some mr => pure mr
              | none => Except.error (PyError2.keyError module))
            pure ({ s with
              modules := dictSet s.modules module
                { mr with files := dictSet mr.files source fileSize },
              fileRecordsDict :=
                dictSet s.fileRecordsDict source (module, fileSize) }, dfs)
          else
            pure (s, dfs)) (st1, 0)
    else pure (st1, (0 : Int))
  let st2 := acc.1
  let size := match size0 with
    | some s => s * 1024
    | none => acc.2
  let st3 := { st2 with
    totalFSSize := st2.totalFSSize + size,
    totalNumberOfDebians := some (st2.totalNumberOfDebians.getD 0 + 1) }
  let mr ← (match List.lookup module st3.modules with
    | some mr => pure mr
    | none => Except.error (PyError2.keyError module))
  let mr' := { mr with
    moduleSize := mr.moduleSize + size,
    numberOfDebians := some (mr.numberOfDebians.getD 0 + 1),
    debians := dictSet mr.debians debian size }
  pure { st3 with modules := dictSet st3.modules module mr' }

/-- Evaluation of `addDebianPackage` with a dpkg-reported size and the
file-recording flag off, on a state whose module record exists. -/
theorem addDebianPackage_present (sourceOf : String → String)
    (lstatSize : String → Option Int) (st : FSState)
    (debian module : String) (k : Int) (fileList : List String)
    (mr : FSModule) (hm : List.lookup module st.modules = some mr) :
    addDebianPackage sourceOf lstatSize false st debian module (some k)
        fileList =
      Except.ok { st with
        totalFSSize := st.totalFSSize + k * 1024,
        totalNumberOfDebians := some (st.totalNumberOfDebians.getD 0 + 1),
        modules := dictSet st.modules module { mr with
          moduleSize := mr.moduleSize + k * 1024,
          numberOfDebians := some (mr.numberOfDebians.getD 0 + 1),
          debians := dictSet mr.debians debian (k * 1024) } } := by
  simp [addDebianPackage, hm, bind, Except.bind, pure, Except.pure]

/-- The same on a state whose module record is absent: the fresh record
is created first and the dict updates collapse. -/
theorem addDebianPackage_absent (sourceOf : String → String)
    (lstatSize : String → Option Int) (st : FSState)
    (debian module : String) (k : Int) (fileList : List String)
    (hm : List.lookup module st.modules = none) :
    addDebianPackage sourceOf lstatSize false st debian module (some k)
        fileList =
      Except.ok { st with
        totalFSSize := st.totalFSSize + k * 1024,
        totalNumberOfDebians := some (st.totalNumberOfDebians.getD 0 + 1),
        modules := dictSet st.modules module
          ⟨0 + k * 1024, none, 0, some (0 + 1), dictSet [] debian (k * 1024),
            []⟩ } := by
  simp [addDebianPackage, hm, lookup_dictSet_self, dictSet_dictSet,
    bind, Except.bind, pure, Except.pure]

end BuildFS

namespace BuildFS

/-- C2 counterexample: recording package `p` (dpkg size 1 KiB block,
i.e. 1024 bytes) twice in module `m` from an empty ledger leaves
`totalFSSize = 2048`, `totalNumberOfDebians = 2`, `moduleSize = 2048`
and `numberOfDebians = 2` — every total accumulated a second time,
whereas replacement semantics would have left 1024 and 1.  Only the
per-package `debians` entry is keyed. -/
theorem C2_counterexample_totals_accumulate :
    ∃ st1 st2,
      addDebianPackage id (fun _ => none) false ⟨0, 0, none, [], []⟩
          "p" "m" (some 1) [] = Except.ok st1 ∧
      addDebianPackage id (fun _ => none) false st1
          "p" "m" (some 1) [] = Except.ok st2 ∧
      st1.totalFSSize = 1024 ∧
      st2.totalFSSize = 2048 ∧ ¬ st2.totalFSSize = 1024 ∧
      st2.totalNumberOfDebians = some 2 ∧
      (∃ mr, List.lookup "m" st2.modules = some mr ∧
        mr.moduleSize = 2048 ∧ mr.numberOfDebians = some 2 ∧
        List.lookup "p" mr.debians = some 1024) := by
  refine ⟨_, _, rfl, rfl, ?_, ?_, ?_, ?_, ?_⟩ <;> decide

/-- C2 (amended): re-recording a package through `addDebianPackage`
accumulates — for every ledger state, the second identical recording
adds the package size to `totalFSSize` and `moduleSize` again and
increments `totalNumberOfDebians` and `numberOfDebians` again, while the
`debians[debian]` entry itself is replaced (it holds the size once after
both calls). -/
theorem C2_addDebianPackage_accumulates (sourceOf : String → String)
    (lstatSize : String → Option Int) (st : FSState)
    (debian module : String) (k : Int) (fileList : List String) :
    ∃ st1 st2,
      addDebianPackage sourceOf lstatSize false st debian module (some k)
        fileList = Except.ok st1 ∧
      addDebianPackage sourceOf lstatSize false st1 debian module (some k)
        fileList = Except.ok st2 ∧
      st2.totalFSSize = st1.totalFSSize + k * 1024 ∧
      st2.totalNumberOfDebians = some (st1.totalNumberOfDebians.getD 0 + 1) ∧
      (∃ mr1 mr2, List.lookup module st1.modules = some mr1 ∧
        List.lookup module st2.modules = some mr2 ∧
        mr2.moduleSize = mr1.moduleSize + k * 1024 ∧
        mr2.numberOfDebians = some (mr1.numberOfDebians.getD 0 + 1) ∧
        List.lookup debian mr1.debians = some (k * 1024) ∧
        List.lookup debian mr2.debians = some (k * 1024)) := by
  rcases hcase : List.lookup module st.modules with _ | mr0
  · have e1 := addDebianPackage_absent sourceOf lstatSize st debian module
      k fileList hcase
    have hm1 : List.lookup module
        ({ st with
          totalFSSize := st.totalFSSize + k * 1024,
          totalNumberOfDebians := some (st.totalNumberOfDebians.getD 0 + 1),
          modules := dictSet st.modules module
            ⟨0 + k * 1024, none, 0, some (0 + 1),
              dictSet [] debian (k * 1024), []⟩ } : FSState).modules =
        some ⟨0 + k * 1024, none, 0, some (0 + 1),
          dictSet [] debian (k * 1024), []⟩ :=
      lookup_dictSet_self _ _ _
    have e2 := addDebianPackage_present sourceOf lstatSize _ debian module
      k fileList _ hm1
    rw [dictSet_dictSet] at e2
    refine ⟨_, _, e1, e2, by dsimp only, by dsimp only, _, _, hm1,
      lookup_dictSet_self _ _ _, by dsimp only, by dsimp only,
      by rw [dictSet_nil]; exact lookup_cons_self _ _ _,
      by rw [dictSet_nil, dictSet]; simp⟩
  · have e1 := addDebianPackage_present sourceOf lstatSize st debian module
      k fileList mr0 hcase
    have hm1 : List.lookup module
        ({ st with
          totalFSSize := st.totalFSSize + k * 1024,
          totalNumberOfDebians := some (st.totalNumberOfDebians.getD 0 + 1),
          modules := dictSet st.modules module { mr0 with
            moduleSize := mr0.moduleSize + k * 1024,
            numberOfDebians := some (mr0.numberOfDebians.getD 0 + 1),
            debians := dictSet mr0.debians debian (k * 1024) } } :
            FSState).modules =
        some { mr0 with
          moduleSize := mr0.moduleSize + k * 1024,
          numberOfDebians := some (mr0.numberOfDebians.getD 0 + 1),
          debians := dictSet mr0.debians debian (k * 1024) } :=
      lookup_dictSet_self _ _ _
    have e2 := addDebianPackage_present sourceOf lstatSize _ debian module
      k fileList _ hm1
    rw [dictSet_dictSet] at e2
    refine ⟨_, _, e1, e2, by dsimp only, by dsimp only, _, _, hm1,
      lookup_dictSet_self _ _ _, by dsimp only, by dsimp only,
      lookup_dictSet_self _ _ _,
      by rw [dictSet_dictSet]; exact lookup_dictSet_self _ _ _⟩

/-- Witness for C2 (amended): the empty ledger, package `p`, module `m`,
reported size 1. -/
theorem C2_witness :
    ∃ st1 st2,
      addDebianPackage id (fun _ => none) false ⟨0, 0, none, [], []⟩
        "p" "m" (some 1) [] = Except.ok st1 ∧
      addDebianPackage id (fun _ => none) false st1
        "p" "m" (some 1) [] = Except.ok st2 ∧
      st2.totalFSSize = st1.totalFSSize + 1 * 1024 ∧
      st2.totalNumberOfDebians = some (st1.totalNumberOfDebians.getD 0 + 1) ∧
      (∃ mr1 mr2, List.lookup "m" st1.modules = some mr1 ∧
        List.lookup "m" st2.modules = some mr2 ∧
        mr2.moduleSize = mr1.moduleSize + 1 * 1024 ∧
        mr2.numberOfDebians = some (mr1.numberOfDebians.getD 0 + 1) ∧
        List.lookup "p" mr1.debians = some (1 * 1024) ∧
        List.lookup "p" mr2.debians = some (1 * 1024)) :=
  C2_addDebianPackage_accumulates id (fun _ => none) ⟨0, 0, none, [], []⟩
    "p" "m" 1 []

end BuildFS

namespace BuildFS

/-! ## Manifest Merger (`deep_dict_update` in utils.py,
`LinuxBuildFS.convert_to_manifest` in build_fs.py) -/

/-- JSON/YAML values as Python sees them: strings, integers, lists and
string-keyed dicts. -/
inductive PyVal where
  | str (s : String)
  | int (n : Int)
  | list (l : List PyVal)
  | dict (d : List (String × PyVal))
deriving Repr

mutual
/-- `utils.deep_dict_update(d1, d2, list_action)`: an error if `d2` is
not a dict; `d2` itself if `d1` is not a dict; otherwise a key-wise
update of `d1` by `d2` in which dict values recurse — with the
`list_action` argument NOT passed down, so nested merges use the default
`"replace"` — and list values colliding with a list in `d1` are replaced
or appended according to `list_action`. -/
def deep_dict_update (d1 d2 : PyVal) (la : String) : Except String PyVal :=
  match d2 with
  | PyVal.dict pairs =>
    match d1 with
    | PyVal.dict pairs1 =>
      match ddu_go pairs1 pairs la with
      | Except.ok res => Except.ok (PyVal.dict res)
      | Except.error e => Except.error e
    | _ => Except.ok d2
  | _ => Except.error "deep_dict_update: Non dict update value."

/-- The `for k, v in d2.items()` loop of `deep_dict_update`, threading
the updated `d1`. -/
def ddu_go (acc : List (String × PyVal)) (pairs : List (String × PyVal))
    (la : String) : Except String (List (String × PyVal)) :=
  match pairs with
  | [] => Except.ok acc
  | (k, v) :: rest =>
    match v with
    | PyVal.dict _ =>
      match deep_dict_update ((List.lookup k acc).getD (PyVal.dict [])) v
          "replace" with
      | Except.ok merged => ddu_go (dictSet acc k merged) rest la
      | Except.error e => Except.error e
    | PyVal.list l =>
      match List.lookup k acc with
      | some (PyVal.list l1) =>
        if la = "replace" then ddu_go (dictSet acc k (PyVal.list l)) rest la
        else if la = "append" then
          ddu_go (dictSet acc k (PyVal.list (l1 ++ l))) rest la
        else
          Except.error ("deep_dict_update: Incorrect list_action value: " ++ la)
      | _ => ddu_go (dictSet acc k v) rest la
    | _ => ddu_go (dictSet acc k v) rest la
end

/-- The fields of a Linux layer CONFIG/MANIFEST document that
`convert_to_manifest` reads and writes. -/
structure LinuxDoc where
  output : String
  os : String
  base : Option String
  mirrors : List PyVal
  users : PyVal
  groups : PyVal
  memberships : PyVal
  copyTargets : List PyVal
  filesystemCleanup : List String
  mounts : PyVal
  filesystemInclude : List String
  associatedFilesystems : List String
  debianPackages : PyVal
  preInstalls : PyVal
  postInstalls : PyVal
deriving Repr

/-- `BuildFS.__init__`: the frozen manifest artifact path for a layer,
`"{outfolder}/{op}.MANIFEST.json"`. -/
def json_manifest_file (outfolder op : String) : String :=
  outfolder ++ "/" ++ op ++ ".MANIFEST.json"

/-- `LinuxBuildFS.convert_to_manifest`.  `fullMirrors`, `fullCpt` and
`debManifest` abstract the external expansions
(`LinuxRootfsOperations.get_full_mirrors`,
`CopyTargetExecutor.get_full_cpt`, `deb_manager.get_full_debian_manifest`).
When a parent frozen manifest exists (`parent = some p`, parsed from
`old_mf`), `OS` and `Base` are copied from the parent manifest's own
fields, `Users`/`Groups`/`Mounts`/`PreInstalls`/`PostInstalls` merge with
the default list action, `Memberships` merges with `list_action="append"`,
and the cleanup/include/associated lists become `list(set(parent + child))`
(modelled by `dedup`, membership-faithful since a Python set is unordered). -/
def convert_to_manifest (fullMirrors : List PyVal → List PyVal)
    (fullCpt : List PyVal → List PyVal) (debManifest : PyVal)
    (child : LinuxDoc) (parent : Option LinuxDoc) :
    Except String LinuxDoc := do
  match parent with
  | none =>
    pure { child with
      mirrors := fullMirrors child.mirrors,
      copyTargets := fullCpt child.copyTargets }
  | some p => do
    let users ← deep_dict_update p.users child.users "replace"
    let groups ← deep_dict_update p.groups child.groups "replace"
    let memberships ← deep_dict_update p.memberships child.memberships "append"
    let mounts ← deep_dict_update p.mounts child.mounts "replace"
    let preInstalls ← deep_dict_update p.preInstalls child.preInstalls "replace"
    let postInstalls ← deep_dict_update p.postInstalls child.postInstalls
      "replace"
    pure { child with
      os := p.os,
      base := p.base,
      mirrors := fullMirrors (p.mirrors ++ child.mirrors),
      users := users,
      groups := groups,
      memberships := memberships,
      copyTargets := fullCpt (p.copyTargets ++ child.copyTargets),
      filesystemCleanup :=
        (p.filesystemCleanup ++ child.filesystemCleanup).dedup,
      mounts := mounts,
      filesystemInclude :=
        (p.filesystemInclude ++ child.filesystemInclude).dedup,
      associatedFilesystems :=
        (p.associatedFilesystems ++ child.associatedFilesystems).dedup,
      debianPackages := debManifest,
      preInstalls := preInstalls,
      postInstalls := postInstalls }

end BuildFS

namespace BuildFS

/-- A parent layer document whose own `Base` is a base tarball, as its
frozen manifest records it. -/
def parentDoc : LinuxDoc :=
  ⟨"parentfs", "linux", some "base.tar.gz", [], PyVal.dict [], PyVal.dict [],
   PyVal.dict [], [], [], PyVal.dict [], [], [], PyVal.dict [], PyVal.dict [],
   PyVal.dict []⟩

/-- A child layer document whose declared `Base` points at the parent's
CONFIG file. -/
def childDoc : LinuxDoc :=
  ⟨"childfs", "linux", some "configs/parent.CONFIG.json", [], PyVal.dict [],
   PyVal.dict [], PyVal.dict [], [], [], PyVal.dict [], [], [],
   PyVal.dict [], PyVal.dict [], PyVal.dict []⟩

/-- C7 counterexample: freezing `childDoc` against the frozen manifest of
`parentDoc` (whose manifest artifact lives at
`out/parentfs.MANIFEST.json`) writes `Base = "base.tar.gz"` — the parent
manifest's own `Base` value — not the parent's frozen manifest path and
not the child's declared base. -/
theorem C7_counterexample_base_not_parent_manifest :
    ∃ m, convert_to_manifest id id (PyVal.dict []) childDoc (some parentDoc) =
        Except.ok m ∧
      m.base = some "base.tar.gz" ∧
      ¬ m.base = some (json_manifest_file "out" "parentfs") ∧
      ¬ m.base = childDoc.base := by
  refine ⟨_, rfl, rfl, by decide, by decide⟩

/-- C7 (amended): whenever a parent frozen manifest exists and the merge
succeeds, the child's frozen manifest carries the parent manifest's own
`OS` and `Base` values — the `Base` reference is propagated from the
parent's recorded base, not rewritten to the parent's frozen manifest
file. -/
theorem C7_base_copied_from_parent_manifest
    (fullMirrors fullCpt : List PyVal → List PyVal) (debManifest : PyVal)
    (child p m : LinuxDoc)
    (h : convert_to_manifest fullMirrors fullCpt debManifest child (some p) =
      Except.ok m) :
    m.base = p.base ∧ m.os = p.os := by
  unfold convert_to_manifest at h
  simp only [bind, Except.bind] at h
  repeat' split at h
  all_goals try exact absurd h (by simp)
  simp only [pure, Except.pure, Except.ok.injEq] at h
  subst h
  exact ⟨rfl, rfl⟩

/-- Witness for C7 (amended) at the concrete parent/child documents. -/
theorem C7_witness :
    (convert_to_manifest id id (PyVal.dict []) childDoc (some parentDoc) =
      Except.ok { childDoc with
        os := "linux", base := some "base.tar.gz" }) ∧
    ({ childDoc with os := "linux", base := some "base.tar.gz" } :
      LinuxDoc).base = parentDoc.base ∧
    ({ childDoc with os := "linux", base := some "base.tar.gz" } :
      LinuxDoc).os = parentDoc.os :=
  ⟨rfl, (C7_base_copied_from_parent_manifest id id (PyVal.dict []) childDoc
      parentDoc _ rfl).1,
    (C7_base_copied_from_parent_manifest id id (PyVal.dict []) childDoc
      parentDoc _ rfl).2⟩

end BuildFS

namespace BuildFS

/-- C9 counterexample: at nesting depth two the recursive merge does not
append — `deep_dict_update` recurses without passing `list_action`, so
merging `{"x": {"u": ["g1"]}}` with `{"x": {"u": ["g2"]}}` under `append`
replaces the nested list, yielding `{"x": {"u": ["g2"]}}` rather than
`{"x": {"u": ["g1","g2"]}}`. -/
theorem C9_counterexample_nested_append_lost :
    deep_dict_update
        (PyVal.dict [("x", PyVal.dict [("u", PyVal.list [PyVal.str "g1"])])])
        (PyVal.dict [("x", PyVal.dict [("u", PyVal.list [PyVal.str "g2"])])])
        "append" =
      Except.ok
        (PyVal.dict [("x", PyVal.dict [("u", PyVal.list [PyVal.str "g2"])])]) ∧
    ¬ deep_dict_update
        (PyVal.dict [("x", PyVal.dict [("u", PyVal.list [PyVal.str "g1"])])])
        (PyVal.dict [("x", PyVal.dict [("u", PyVal.list [PyVal.str "g2"])])])
        "append" =
      Except.ok
        (PyVal.dict [("x", PyVal.dict
          [("u", PyVal.list [PyVal.str "g1", PyVal.str "g2"])])]) := by
  constructor
  · rfl
  · intro hcontra
    rw [show deep_dict_update
        (PyVal.dict [("x", PyVal.dict [("u", PyVal.list [PyVal.str "g1"])])])
        (PyVal.dict [("x", PyVal.dict [("u", PyVal.list [PyVal.str "g2"])])])
        "append" =
      Except.ok
        (PyVal.dict [("x", PyVal.dict [("u", PyVal.list [PyVal.str "g2"])])])
      from rfl] at hcontra
    simp only [Except.ok.injEq, PyVal.dict.injEq, List.cons.injEq,
      Prod.mk.injEq, PyVal.list.injEq] at hcontra
    simp at hcontra

/-- C9 (amended): the cleanup-path merge law holds (the frozen
`FilesystemCleanup` is the de-duplicated union of parent and child as a
set), and the membership append law holds at the top level of the
mapping — for any same-key pair of list values, `append` concatenates —
but at every deeper nesting level the recursive call reverts to the
default replace action because `list_action` is not passed down. -/
theorem C9_merge_laws_with_top_level_append_only :
    (∀ (fullMirrors fullCpt : List PyVal → List PyVal) (debManifest : PyVal)
      (child p m : LinuxDoc),
      convert_to_manifest fullMirrors fullCpt debManifest child (some p) =
        Except.ok m →
      ∀ x, x ∈ m.filesystemCleanup ↔
        x ∈ p.filesystemCleanup ∨ x ∈ child.filesystemCleanup) ∧
    (∀ (u : String) (g1 g2 : List PyVal),
      deep_dict_update (PyVal.dict [(u, PyVal.list g1)])
          (PyVal.dict [(u, PyVal.list g2)]) "append" =
        Except.ok (PyVal.dict [(u, PyVal.list (g1 ++ g2))])) ∧
    (∀ (la k : String) (d1 : PyVal) (dpairs : List (String × PyVal)),
      deep_dict_update (PyVal.dict [(k, d1)])
          (PyVal.dict [(k, PyVal.dict dpairs)]) la =
        Except.map (fun m => PyVal.dict [(k, m)])
          (deep_dict_update d1 (PyVal.dict dpairs) "replace")) := by
  refine ⟨?_, ?_, ?_⟩
  · intro fullMirrors fullCpt debManifest child p m h x
    unfold convert_to_manifest at h
    simp only [bind, Except.bind] at h
    repeat' split at h
    all_goals try exact absurd h (by simp)
    simp only [pure, Except.pure, Except.ok.injEq] at h
    subst h
    simp [List.mem_dedup]
  · intro u g1 g2
    rw [deep_dict_update, ddu_go]
    simp [dictSet, ddu_go]
  · intro la k d1 dpairs
    rw [deep_dict_update, ddu_go]
    simp only [lookup_cons_self, Option.getD_some]
    cases hm : deep_dict_update d1 (PyVal.dict dpairs) "replace" with
    | ok merged => simp [dictSet, ddu_go, Except.map]
    | error e => simp [Except.map]

/-- Witness for C9 (amended): the spec's own concrete instances —
cleanup sets `{/a, /b}` with `{/b, /c}` tested at `/a`, and membership
`{"u": ["g1"]}` with `{"u": ["g2"]}`. -/
theorem C9_witness :
    (∃ m, convert_to_manifest id id (PyVal.dict [])
        { childDoc with filesystemCleanup := ["/b", "/c"] }
        (some { parentDoc with filesystemCleanup := ["/a", "/b"] }) =
        Except.ok m ∧
      ("/a" ∈ m.filesystemCleanup ↔
        "/a" ∈ (["/a", "/b"] : List String) ∨
        "/a" ∈ (["/b", "/c"] : List String))) ∧
    deep_dict_update (PyVal.dict [("u", PyVal.list [PyVal.str "g1"])])
        (PyVal.dict [("u", PyVal.list [PyVal.str "g2"])]) "append" =
      Except.ok (PyVal.dict
        [("u", PyVal.list [PyVal.str "g1", PyVal.str "g2"])]) :=
  ⟨⟨_, rfl, C9_merge_laws_with_top_level_append_only.1 id id (PyVal.dict [])
      { childDoc with filesystemCleanup := ["/b", "/c"] }
      { parentDoc with filesystemCleanup := ["/a", "/b"] } _ rfl "/a"⟩,
    C9_merge_laws_with_top_level_append_only.2.1 "u"
      [PyVal.str "g1"] [PyVal.str "g2"]⟩

end BuildFS

namespace BuildFS

/-! ## Size Budget Ledger enforcement
(`FSLeasedSpace.check_target_size_manifest`, `raise_issue`, `getIntValue`
in build_fs.py) -/

/-- A value of the size-limits YAML (loaded with `yaml.BaseLoader`, so
every scalar is a string): either a plain scalar or a per-layer mapping
layer-name → scalar. -/
inductive LimitEntry where
  | scalar (s : String)
  | perLayer (m : List (String × String))
deriving Repr, DecidableEq

/-- The size-limits document: `maxFSSize` (key possibly absent) and
`modules` (key possibly absent, possibly YAML `null`, else a mapping
module name → limit entry). -/
structure SizeLimits where
  maxFSSize : Option LimitEntry
  modules : Option (Option (List (String × LimitEntry)))
deriving Repr, DecidableEq

/-- `["bytes", "byte", "B"]`, the `acceptable_units` of `FSLeasedSpace`. -/
def acceptable_units : List String := ["bytes", "byte", "B"]

/-- Value of a maximal digit run, as `int` applied to the first match of
`re.findall('[0-9]+', value)`. -/
def digitsToNat (cs : List Char) : Nat :=
  cs.foldl (fun a c => a * 10 + (c.toNat - 48)) 0

/-- The first maximal run of ASCII digits in a string, `none` when the
string has no digit (in which case Python's `[0]` raises `IndexError`). -/
def firstDigitRun : List Char → Option Nat
  | [] => none
  | c :: rest =>
    if c.isDigit then some (digitsToNat (c :: rest.takeWhile Char.isDigit))
    else firstDigitRun rest

/-- How a fatal path out of the enforcement run terminates the process:
a `raise_issue` in its default severity, a `getIntValue` unit failure
(which calls `raise_error_and_exit` directly, regardless of any opt-out),
or the uncaught `IndexError` on a unit-suffixed value with no digits. -/
inductive ExitKind where
  | issue (msg : String)
  | badUnit (value : String)
  | indexError (value : String)
deriving Repr, DecidableEq

/-- `str.endswith(u)`, computed on the character lists. -/
def pyEndsWith (v u : String) : Bool := u.data.isSuffixOf v.data

/-- `str.startswith("+")`: the first character is `'+'`. -/
def pyStartsWithPlus (v : String) : Bool :=
  match v.data with
  | [] => false
  | c :: _ => c = '+'

/-- `FSLeasedSpace.getIntValue`: require one of the acceptable unit
suffixes (else `raise_error_and_exit`), then take the integer value of
the first digit run (no digit run: uncaught `IndexError`). -/
def getIntValue (v : String) : Except ExitKind Nat :=
  if acceptable_units.any (fun u => pyEndsWith v u) then
    match firstDigitRun v.data with
    | some n => Except.ok n
    | none => Except.error (ExitKind.indexError v)
  else
    Except.error (ExitKind.badUnit v)

/-- `FSLeasedSpace.raise_issue`: with the
`NV_ERROR_ON_FS_SIZE_LIMITS=false` opt-out the issue is logged as a
warning and control returns to the caller; otherwise
`raise_error_and_exit` terminates the process. -/
def raise_issue (warnOnly : Bool) (msg : String) (ws : List String) :
    Except ExitKind (List String) :=
  if warnOnly then Except.ok (ws ++ [msg]) else Except.error (ExitKind.issue msg)

/-- How one enforcement run ends: reaching the final
`writeTargetSizeManifest` line, returning early out of a `raise_issue;
return` path, or terminating the process. -/
inductive RunEnd where
  | completed
  | returnedEarly
  | exited (k : ExitKind)
deriving Repr, DecidableEq

/-- The observable outcome of one `check_target_size_manifest` run:
how it ended, whether the ledger file was written back, the warnings
logged, and the limit values recorded into the in-memory ledger dict
(persisted only if written). -/
structure CheckResult where
  endState : RunEnd
  wrote : Bool
  warnings : List String
  totalLimitRecorded : Option Nat
  moduleLimitsRecorded : List (String × Nat)
deriving Repr, DecidableEq

/-- The inputs of one enforcement run: the parsed limits document, the
layer (filesystem) name, the `du`-measured total (the work dir is never
`/` in practice), the ledger's modules with their recorded sizes in dict
order, whether the layer extends a base image, and the severity opt-out. -/
structure CheckInput where
  limits : SizeLimits
  filesystem : String
  duTotal : Nat
  ledgerModules : List (String × Nat)
  usesBase : Bool
  warnOnly : Bool
deriving Repr, DecidableEq

/-- Two-level policy lookup (exact layer name, else `"others"`): `none`
models the `raise_issue; return` branch for a per-layer mapping that
names neither. -/
def resolveEntry (fs : String) : LimitEntry → Option String
  | LimitEntry.scalar v => some v
  | LimitEntry.perLayer m =>
    match List.lookup fs m with
    | some v => some v
    | none => List.lookup "others" m

/-- The `for module in file_size_dict["modules"]` loop of
`check_target_size_manifest`: per module, policy lookup (missing entry:
`raise_issue; return`), relative-delta check on base-extending layers
(absolute limit: `raise_issue; return`), `getIntValue`, recording of
`moduleSizeLimit`, and the size comparison (`raise_issue` without
`return`).  After the loop the ledger is written. -/
def checkModules (warnOnly usesBase : Bool) (fs : String)
    (mlimits : List (String × LimitEntry)) :
    List (String × Nat) → List String → List (String × Nat) →
    RunEnd × Bool × List String × List (String × Nat)
  | [], ws, recorded => (RunEnd.completed, true, ws, recorded)
  | (module, msize) :: rest, ws, recorded =>
    match List.lookup module mlimits with
    | none =>
      match raise_issue warnOnly ("The max size of '" ++ module ++
          "' module is not defined in the size limits file.") ws with
      | Except.error k => (RunEnd.exited k, false, ws, recorded)
      | Except.ok ws' => (RunEnd.returnedEarly, false, ws', recorded)
    | some entry =>
      match resolveEntry fs entry with
      | none =>
        match raise_issue warnOnly ("The max size of '" ++ module ++
            "' module for '" ++ fs ++ "' filesystem is not defined.") ws with
        | Except.error k => (RunEnd.exited k, false, ws, recorded)
        | Except.ok ws' => (RunEnd.returnedEarly, false, ws', recorded)
      | some v =>
        if usesBase && !(pyStartsWithPlus v) then
          match raise_issue warnOnly ("'" ++ fs ++ "' uses a base; " ++
              "module size limits should start with a '+' " ++
              "(e.g +512 bytes)") ws with
          | Except.error k => (RunEnd.exited k, false, ws, recorded)
          | Except.ok ws' => (RunEnd.returnedEarly, false, ws', recorded)
        else
          match getIntValue v with
          | Except.error k => (RunEnd.exited k, false, ws, recorded)
          | Except.ok lim =>
            let recorded' := dictSet recorded module lim
            if msize > lim then
              match raise_issue warnOnly ("The size of '" ++ module ++
                  "' module is more than the permissible limit.") ws with
              | Except.error k => (RunEnd.exited k, false, ws, recorded')
              | Except.ok ws' =>
                checkModules warnOnly usesBase fs mlimits rest ws' recorded'
            else
              checkModules warnOnly usesBase fs mlimits rest ws recorded'

/-- `FSLeasedSpace.check_target_size_manifest` (with a limits file
present): re-read the ledger, overwrite `totalFSSize` with the `du`
measurement, check the total against the (two-level) `maxFSSize` policy
(missing key or unmatched layer: `raise_issue; return`; exceeded:
`raise_issue` without `return`), record `totalFSSizeLimit`, check the
`modules` policy key (missing or null: `raise_issue; return`), run the
module loop, and only at the very end write the ledger back. -/
def check_target_size_manifest (inp : CheckInput) : CheckResult :=
  match inp.limits.maxFSSize with
  | none =>
    match raise_issue inp.warnOnly
        "The max size of filesystems has not been defined (maxFSSize)." [] with
    | Except.error k => ⟨RunEnd.exited k, false, [], none, []⟩
    | Except.ok ws => ⟨RunEnd.returnedEarly, false, ws, none, []⟩
  | some entry =>
    match resolveEntry inp.filesystem entry with
    | none =>
      match raise_issue inp.warnOnly
          ("The max size of '" ++ inp.filesystem ++
            "' filesystem is not defined.") [] with
      | Except.error k => ⟨RunEnd.exited k, false, [], none, []⟩
      | Except.ok ws => ⟨RunEnd.returnedEarly, false, ws, none, []⟩
    | some v =>
      match getIntValue v with
      | Except.error k => ⟨RunEnd.exited k, false, [], none, []⟩
      | Except.ok maxFS =>
        match (if inp.duTotal > maxFS then
            raise_issue inp.warnOnly
              ("The size of '" ++ inp.filesystem ++
                "' filesystem is more than the total permissible limit.") []
          else Except.ok []) with
        | Except.error k => ⟨RunEnd.exited k, false, [], some maxFS, []⟩
        | Except.ok ws1 =>
          match inp.limits.modules with
          | none =>
            match raise_issue inp.warnOnly
                "The module sizes have not been defined (modules)." ws1 with
            | Except.error k => ⟨RunEnd.exited k, false, ws1, some maxFS, []⟩
            | Except.ok ws => ⟨RunEnd.returnedEarly, false, ws, some maxFS, []⟩
          | some none =>
            match raise_issue inp.warnOnly
                "The module sizes have not been defined (modules)." ws1 with
            | Except.error k => ⟨RunEnd.exited k, false, ws1, some maxFS, []⟩
            | Except.ok ws => ⟨RunEnd.returnedEarly, false, ws, some maxFS, []⟩
          | some (some ml) =>
            match checkModules inp.warnOnly inp.usesBase inp.filesystem ml
                inp.ledgerModules ws1 [] with
            | (e, w, ws2, recd) => ⟨e, w, ws2, some maxFS, recd⟩

end BuildFS

namespace BuildFS

/-- An `Except.error` out of `getIntValue` is a unit failure or the
`IndexError` on a digit-free value — never a `raise_issue`. -/
theorem getIntValue_error_shape {v : String} {k : ExitKind}
    (h : getIntValue v = Except.error k) :
    k = ExitKind.badUnit v ∨ k = ExitKind.indexError v := by
  unfold getIntValue at h
  split at h
  · split at h
    · exact absurd h (by simp)
    · simp only [Except.error.injEq] at h
      exact Or.inr h.symm
  · simp only [Except.error.injEq] at h
    exact Or.inl h.symm

set_option maxHeartbeats 1000000 in
/-- The module loop writes the ledger exactly when it runs to
completion. -/
theorem checkModules_wrote_iff_completed (w ub : Bool) (fs : String)
    (ml : List (String × LimitEntry)) :
    ∀ (l : List (String × Nat)) (ws : List String)
      (recd : List (String × Nat)),
      ((checkModules w ub fs ml l ws recd).2.1 = true ↔
        (checkModules w ub fs ml l ws recd).1 = RunEnd.completed) := by
  intro l
  induction l with
  | nil =>
    intro ws recd
    simp [checkModules]
  | cons hd tl ih =>
    intro ws recd
    obtain ⟨module, msize⟩ := hd
    rw [checkModules]
    repeat' split
    all_goals first
      | (dsimp only; simp; done)
      | exact ih _ _

set_option maxHeartbeats 1000000 in
/-- With the severity opt-out, the module loop can terminate the process
only through `getIntValue`, never through a `raise_issue`. -/
theorem checkModules_exit_shape (ub : Bool) (fs : String)
    (ml : List (String × LimitEntry)) :
    ∀ (l : List (String × Nat)) (ws : List String)
      (recd : List (String × Nat)) (k : ExitKind),
      (checkModules true ub fs ml l ws recd).1 = RunEnd.exited k →
      ∃ v, k = ExitKind.badUnit v ∨ k = ExitKind.indexError v := by
  intro l
  induction l with
  | nil =>
    intro ws recd k h
    simp [checkModules] at h
  | cons hd tl ih =>
    intro ws recd k h
    obtain ⟨module, msize⟩ := hd
    rw [checkModules] at h
    repeat' split at h
    all_goals first
      | exact ih _ _ _ h
      | (exfalso
         revert h
         simp
         done)
      | (dsimp only at h
         simp only [RunEnd.exited.injEq] at h
         subst h
         first
           | (exfalso
              rename_i heq
              rw [raise_issue] at heq
              revert heq
              simp
              done)
           | (rename_i heq
              exact ⟨_, getIntValue_error_shape heq⟩))

end BuildFS

namespace BuildFS

/-- A downgraded `raise_issue` never produces a fatal error value. -/
theorem raise_issue_true_ne_error (msg : String) (ws : List String)
    (k : ExitKind) : raise_issue true msg ws ≠ Except.error k := by
  rw [raise_issue]
  simp

/-- C5 counterexample: two enforcement runs in which the run ends
without the ledger being written back.  With the warning opt-out and a
limits file lacking `maxFSSize`, `raise_issue` logs and the function
returns before any write; in the default severity with the total limit
exceeded, `raise_error_and_exit` terminates the process before the
write.  (The outcome after a policy error or a fatal budget error is
thus an unwritten ledger, against the claim.) -/
theorem C5_counterexample_not_written_on_policy_error :
    (check_target_size_manifest
        ⟨⟨none, none⟩, "standard", 0, [], false, true⟩).wrote = false ∧
    (check_target_size_manifest
        ⟨⟨none, none⟩, "standard", 0, [], false, true⟩).endState =
      RunEnd.returnedEarly ∧
    (check_target_size_manifest
        ⟨⟨some (LimitEntry.scalar "10 bytes"), none⟩, "standard", 100, [],
          false, false⟩).wrote = false ∧
    (∃ m, (check_target_size_manifest
        ⟨⟨some (LimitEntry.scalar "10 bytes"), none⟩, "standard", 100, [],
          false, false⟩).endState = RunEnd.exited (ExitKind.issue m)) :=
  ⟨rfl, rfl, rfl, _, rfl⟩

/-- C5 (amended): the ledger file is written back if and only if the
enforcement run reaches its final line — no policy-error early return
and no fatal exit occurred; whenever it is written, the total limit has
been recorded into it. -/
theorem C5_ledger_written_iff_run_completes (inp : CheckInput) :
    ((check_target_size_manifest inp).wrote = true ↔
      (check_target_size_manifest inp).endState = RunEnd.completed) ∧
    ((check_target_size_manifest inp).endState = RunEnd.completed →
      (check_target_size_manifest inp).totalLimitRecorded.isSome = true) := by
  unfold check_target_size_manifest
  repeat' split
  all_goals try (refine ⟨?_, ?_⟩ <;> simp ; done)
  all_goals
    (rename_i e w2 ws2 recd heq
     refine ⟨?_, fun _ => rfl⟩
     show (e, w2, ws2, recd).2.1 = true ↔ (e, w2, ws2, recd).1 = RunEnd.completed
     rw [← heq]
     exact checkModules_wrote_iff_completed _ _ _ _ _ _ _)

/-- C6 counterexample: with the `NV_ERROR_ON_FS_SIZE_LIMITS=false`
opt-out, both kinds of budget-policy error are downgraded to logged
warnings — a module missing from the policy, and an absolute module
limit on a layer that extends a base image both make the run return
early with a warning instead of terminating the process. -/
theorem C6_counterexample_policy_errors_downgradable :
    (check_target_size_manifest
        ⟨⟨some (LimitEntry.scalar "1000 bytes"), some (some [])⟩,
          "standard", 10, [("m", 5)], false, true⟩).endState =
      RunEnd.returnedEarly ∧
    ¬ (check_target_size_manifest
        ⟨⟨some (LimitEntry.scalar "1000 bytes"), some (some [])⟩,
          "standard", 10, [("m", 5)], false, true⟩).warnings = [] ∧
    (check_target_size_manifest
        ⟨⟨some (LimitEntry.scalar "1000 bytes"),
            some (some [("m", LimitEntry.scalar "512 bytes")])⟩,
          "standard", 10, [("m", 5)], true, true⟩).endState =
      RunEnd.returnedEarly := by
  refine ⟨rfl, ?_, rfl⟩
  decide

set_option maxHeartbeats 1000000 in
/-- C6 (amended): budget-policy errors flow through the same
`raise_issue` severity switch as budget-exceeded errors, so the
environment opt-out downgrades them too — with the opt-out set no run
terminates through a `raise_issue` (only `getIntValue`'s unit errors
remain fatal) — while in the default severity a policy error (here: a
missing `maxFSSize` entry) does terminate the process. -/
theorem C6_policy_errors_share_severity_switch :
    (∀ (inp : CheckInput) (msg : String), inp.warnOnly = true →
      ¬ (check_target_size_manifest inp).endState =
        RunEnd.exited (ExitKind.issue msg)) ∧
    (∀ inp : CheckInput, inp.warnOnly = false →
      inp.limits.maxFSSize = none →
      (check_target_size_manifest inp).endState =
        RunEnd.exited (ExitKind.issue
          "The max size of filesystems has not been defined (maxFSSize).")) := by
  constructor
  · intro inp msg hw
    unfold check_target_size_manifest
    rw [hw]
    repeat' split
    all_goals try (simp ; done)
    all_goals try
      (exfalso
       rename_i heq
       exact absurd heq (raise_issue_true_ne_error _ _ _))
    all_goals try
      (exfalso
       rename_i heq
       revert heq
       split
       · intro hq
         exact absurd hq (raise_issue_true_ne_error _ _ _)
       · intro hq
         exact Except.noConfusion hq)
    all_goals try
      (intro hc
       dsimp only at hc
       simp only [RunEnd.exited.injEq] at hc
       rename_i heq
       rcases getIntValue_error_shape heq with hv | hv <;> simp_all)
    all_goals
      (rename_i e w2 ws2 recd heq
       intro hc
       dsimp only at hc
       have h1 := congrArg Prod.fst heq
       obtain ⟨v, hv | hv⟩ :=
         checkModules_exit_shape _ _ _ _ _ _ _ (h1.trans hc) <;> simp_all)
  · intro inp hw hm
    obtain ⟨limits, fs, du, lms, ub, wo⟩ := inp
    obtain ⟨mx, mo⟩ := limits
    dsimp only at hw hm
    cases hw
    cases hm
    rfl

/-- Witness for C6 (amended) hypotheses at concrete enforcement runs. -/
theorem C6_witness :
    (¬ (check_target_size_manifest
        ⟨⟨some (LimitEntry.scalar "1000 bytes"), some (some [])⟩,
          "standard", 10, [("m", 5)], false, true⟩).endState =
      RunEnd.exited (ExitKind.issue "any")) ∧
    (check_target_size_manifest
        ⟨⟨none, none⟩, "standard", 0, [], false, false⟩).endState =
      RunEnd.exited (ExitKind.issue
        "The max size of filesystems has not been defined (maxFSSize).") :=
  ⟨C6_policy_errors_share_severity_switch.1
      ⟨⟨some (LimitEntry.scalar "1000 bytes"), some (some [])⟩,
        "standard", 10, [("m", 5)], false, true⟩ "any" rfl,
    C6_policy_errors_share_severity_switch.2
      ⟨⟨none, none⟩, "standard", 0, [], false, false⟩ rfl rfl⟩

end BuildFS

namespace BuildFS

/-! ## Package Dependency Attributor
(`FSLeasedSpace.updateDependsModule`, `processDebianPackageManifest`
in build_fs.py) -/

/-- Python regex `\s` on the ASCII range: the characters removed by
`re.sub(r"\s+", "", depends)`. -/
def isPyWs (c : Char) : Bool :=
  c = ' ' || c = '\t' || c = '\n' || c = '\r' || c = '\x0b' || c = '\x0c'

/-- Scan for the closing parenthesis of `re.sub(r"\([^()]*\)", "", ...)`:
from the position after a `'('`, the regex matches exactly when the next
parenthesis character is a `')'`; the characters up to and including it
are consumed. -/
def spanToClose : List Char → Option (List Char)
  | [] => none
  | ')' :: r => some r
  | '(' :: _ => none
  | _ :: r => spanToClose r

/-- `re.sub(r"\([^()]*\)", "", s)` with structural fuel (one unit per
consumed character, so the input length suffices): remove every leftmost
non-overlapping bracket group that contains no nested parenthesis. -/
def rpgFuel : Nat → List Char → List Char
  | 0, l => l
  | _ + 1, [] => []
  | fuel + 1, '(' :: rest =>
    match spanToClose rest with
    | some rest' => rpgFuel fuel rest'
    | none => '(' :: rpgFuel fuel rest
  | fuel + 1, c :: rest => c :: rpgFuel fuel rest

def removeParenGroups (l : List Char) : List Char := rpgFuel l.length l

/-- Python `"...".split(",")`: split on every comma, preserving empty
pieces (an empty input yields `[""]`). -/
def splitCommasAux : List Char → List Char → List String
  | [], acc => [String.mk acc.reverse]
  | ',' :: rest, acc => String.mk acc.reverse :: splitCommasAux rest []
  | c :: rest, acc => splitCommasAux rest (c :: acc)

/-- The dependency-string cleanup of `updateDependsModule`: remove all
whitespace, replace `|` by `,`, remove version-constraint bracket
groups, then split on `,`. -/
def parseDepends (s : String) : List String :=
  splitCommasAux
    (removeParenGroups ((s.data.filter (fun c => !isPyWs c)).map
      (fun c => if c = '|' then ',' else c))) []

/-- One entry of `installed_packages` in the package manifest: the
dpkg-reported size, the file list and the raw `depends` string
(`none` models YAML null). -/
structure PackageInfo where
  size : Option Int
  files : List String
  depends : Option String
deriving Repr, DecidableEq

/-- The package manifest consumed by `processDebianPackageManifest`. -/
structure PackageManifest where
  installed_packages : List (String × PackageInfo)
  base_packages : List String
deriving Repr, DecidableEq

/-- The body of the `for dependent in depends` loop of
`updateDependsModule`, threading the module map (`none` = a failure of
the recursion, which no reachable call produces): an already-assigned
dependency is skipped; otherwise it inherits `debian_module[debian]`
and is recursed into through `updF`. -/
def updStep (updF : String → List (String × String) →
      Option (List (String × String)))
    (debian : String) (acc : Option (List (String × String))) (d : String) :
    Option (List (String × String)) :=
  match acc with
  | none => none
  | some dm =>
    if (List.lookup d dm).isSome then some dm
    else
      match List.lookup debian dm with
      | none => none
      | some m => updF d (dictSet dm d m)

/-- `FSLeasedSpace.updateDependsModule(debian, debian_module,
packageManifestDict)`, with explicit recursion fuel (`none` = fuel
exhausted; a sufficient bound is proved below): a package absent from
`installed_packages` is (re)assigned `"unknown"`; a package with no
`depends` leaves the map unchanged; otherwise the dependency loop runs
over the parsed dependency list. -/
def updateDependsModule (mf : PackageManifest) (fuel : Nat) (debian : String)
    (dm : List (String × String)) : Option (List (String × String)) :=
  match fuel with
  | 0 => none
  | fuel' + 1 =>
    match List.lookup debian mf.installed_packages with
    | none => some (dictSet dm debian "unknown")
    | some info =>
      match info.depends with
      | none => some dm
      | some s =>
        (parseDepends s).foldl
          (fun acc d =>
            updStep (fun d' dm' => updateDependsModule mf fuel' d' dm')
              debian acc d)
          (some dm)

/-- Every package name occurring in some parsed dependency list of the
manifest. -/
def depNames (mf : PackageManifest) : List String :=
  mf.installed_packages.foldr (fun p acc =>
    (match p.2.depends with
     | none => []
     | some s => parseDepends s) ++ acc) []

/-- A fuel bound sufficient for every traversal (proved below). -/
def attributionFuel (mf : PackageManifest) : Nat := (depNames mf).length + 1

/-- Phase 1 of `processDebianPackageManifest`:
`for debian in debian_module.copy(): self.updateDependsModule(debian, ...)`
over the seed assignments. -/
def attributionPhase1 (mf : PackageManifest)
    (seeds : List (String × String)) : Option (List (String × String)) :=
  (seeds.map Prod.fst).foldlM
    (fun dm d => updateDependsModule mf (attributionFuel mf) d dm) seeds

/-- Phase 2: every installed package not inherited from the base (when
`uses_base`) and still unassigned defaults to module `"unknown"`. -/
def attributionPhase2 (mf : PackageManifest) (usesBase : Bool)
    (dm : List (String × String)) : List (String × String) :=
  mf.installed_packages.foldl (fun dm p =>
    if usesBase && mf.base_packages.contains p.1 then dm
    else if (List.lookup p.1 dm).isSome then dm
    else dictSet dm p.1 "unknown") dm

/-- The module-map part of `FSLeasedSpace.processDebianPackageManifest`
(the `addDebianPackage` ledger side effects are modelled separately):
dependency attribution from the seeds, then the `"unknown"` default. -/
def processDebianPackageManifest (mf : PackageManifest) (usesBase : Bool)
    (seeds : List (String × String)) : Option (List (String × String)) :=
  (attributionPhase1 mf seeds).map (attributionPhase2 mf usesBase)

end BuildFS

namespace BuildFS

/-- Key containment between two module maps: every assigned package
stays assigned. -/
def KeysMono (dm1 dm2 : List (String × String)) : Prop :=
  ∀ k, (List.lookup k dm1).isSome = true → (List.lookup k dm2).isSome = true

theorem keysMono_refl (dm : List (String × String)) : KeysMono dm dm :=
  fun _ h => h

theorem keysMono_trans {dm1 dm2 dm3 : List (String × String)}
    (h1 : KeysMono dm1 dm2) (h2 : KeysMono dm2 dm3) : KeysMono dm1 dm3 :=
  fun k h => h2 k (h1 k h)

theorem keysMono_dictSet (dm : List (String × String)) (k : String)
    (v : String) : KeysMono dm (dictSet dm k v) := by
  intro k' h
  by_cases hk : k' = k
  · subst hk
    rw [lookup_dictSet_self]
    rfl
  · rw [lookup_dictSet_ne _ _ hk]
    exact h

theorem lookup_mem_of_eq_some {β : Type} {l : List (String × β)} {k : String}
    {v : β} (h : List.lookup k l = some v) : (k, v) ∈ l := by
  induction l with
  | nil => simp [List.lookup] at h
  | cons p rest ih =>
    obtain ⟨k0, v0⟩ := p
    by_cases hk : k = k0
    · subst hk
      rw [lookup_cons_self] at h
      simp only [Option.some.injEq] at h
      subst h
      exact List.mem_cons_self _ _
    · rw [lookup_cons_ne _ _ hk] at h
      exact List.mem_cons_of_mem _ (ih h)

theorem lookup_isSome_of_mem_keys {β : Type} {l : List (String × β)}
    {k : String} (h : k ∈ l.map Prod.fst) :
    (List.lookup k l).isSome = true := by
  induction l with
  | nil => simp at h
  | cons p rest ih =>
    obtain ⟨k0, v0⟩ := p
    simp only [List.map_cons, List.mem_cons] at h
    by_cases hk : k = k0
    · subst hk
      rw [lookup_cons_self]
      rfl
    · rw [lookup_cons_ne _ _ hk]
      exact ih (h.resolve_left hk)

/-- The count of dependency names still unassigned in the module map;
the traversal strictly shrinks it at every recursion step. -/
def countMissing (mf : PackageManifest) (dm : List (String × String)) : Nat :=
  (depNames mf).countP (fun d => (List.lookup d dm).isNone)

theorem countMissing_le_length (mf : PackageManifest)
    (dm : List (String × String)) :
    countMissing mf dm ≤ (depNames mf).length :=
  List.countP_le_length _

theorem countP_le_countP_of_imp {α : Type} {p q : α → Bool} :
    ∀ (l : List α), (∀ a ∈ l, q a = true → p a = true) →
      l.countP q ≤ l.countP p := by
  intro l
  induction l with
  | nil => intro _; simp
  | cons a rest ih =>
    intro h
    rw [List.countP_cons, List.countP_cons]
    have hrest := ih (fun b hb => h b (List.mem_cons_of_mem _ hb))
    by_cases hq : q a = true
    · rw [if_pos hq, if_pos (h a (List.mem_cons_self _ _) hq)]
      omega
    · rw [if_neg hq]
      split <;> omega

theorem countP_lt_countP_of_flip {α : Type} {p q : α → Bool} :
    ∀ (l : List α), (∀ a ∈ l, q a = true → p a = true) →
      ∀ d ∈ l, p d = true → q d = false → l.countP q < l.countP p := by
  intro l
  induction l with
  | nil => intro _ d hd; simp at hd
  | cons a rest ih =>
    intro h d hd hp hq
    rw [List.countP_cons, List.countP_cons]
    have hrest := countP_le_countP_of_imp rest
      (fun b hb => h b (List.mem_cons_of_mem _ hb))
    rcases List.mem_cons.mp hd with rfl | hd'
    · have h1 : (if q d = true then 1 else 0) = 0 := by rw [hq]; simp
      have h2 : (if p d = true then 1 else 0) = 1 := by rw [hp]; simp
      rw [h1, h2]
      omega
    · have hlt := ih (fun b hb => h b (List.mem_cons_of_mem _ hb)) d hd' hp hq
      have hle : (if q a = true then 1 else 0) ≤
          (if p a = true then 1 else 0) := by
        by_cases hqa : q a = true
        · rw [if_pos hqa, if_pos (h a (List.mem_cons_self _ _) hqa)]
        · rw [if_neg hqa]
          split <;> omega
      omega

theorem countMissing_anti {mf : PackageManifest}
    {dm dm' : List (String × String)} (h : KeysMono dm dm') :
    countMissing mf dm' ≤ countMissing mf dm := by
  apply countP_le_countP_of_imp
  intro a _ ha
  rcases hn : List.lookup a dm with _ | v
  · rfl
  · exfalso
    have hs := h a (by rw [hn]; rfl)
    rw [Option.isNone_iff_eq_none] at ha
    rw [ha] at hs
    simp at hs

theorem countMissing_strict {mf : PackageManifest}
    {dm : List (String × String)} {d : String} (v : String)
    (hd : d ∈ depNames mf) (hnone : List.lookup d dm = none) :
    countMissing mf (dictSet dm d v) < countMissing mf dm := by
  have hpq : ∀ a ∈ depNames mf,
      (List.lookup a (dictSet dm d v)).isNone = true →
      (List.lookup a dm).isNone = true := by
    intro a _ ha
    by_cases hak : a = d
    · subst hak
      rw [lookup_dictSet_self] at ha
      simp at ha
    · rw [lookup_dictSet_ne _ _ hak] at ha
      exact ha
  have hp : (List.lookup d dm).isNone = true := by rw [hnone]; rfl
  have hq : (List.lookup d (dictSet dm d v)).isNone = false := by
    rw [lookup_dictSet_self]
    rfl
  exact countP_lt_countP_of_flip _ hpq d hd hp hq

end BuildFS

namespace BuildFS

theorem foldl_updStep_none (updF : String → List (String × String) →
      Option (List (String × String))) (debian : String) :
    ∀ deps : List String,
      deps.foldl (fun acc d => updStep updF debian acc d) none = none := by
  intro deps
  induction deps with
  | nil => rfl
  | cons d rest ih =>
    rw [List.foldl_cons]
    exact ih

theorem foldl_updStep_mono (updF : String → List (String × String) →
      Option (List (String × String))) (debian : String)
    (hF : ∀ d dm dm', updF d dm = some dm' → KeysMono dm dm') :
    ∀ (deps : List String) (dm dm' : List (String × String)),
      deps.foldl (fun acc d => updStep updF debian acc d) (some dm) =
        some dm' → KeysMono dm dm' := by
  intro deps
  induction deps with
  | nil =>
    intro dm dm' h
    simp only [List.foldl_nil, Option.some.injEq] at h
    subst h
    exact keysMono_refl dm
  | cons d rest ih =>
    intro dm dm' h
    rw [List.foldl_cons] at h
    rw [updStep] at h
    split at h
    · exact ih dm dm' h
    · split at h
      · rw [foldl_updStep_none] at h
        exact absurd h (by simp)
      · rename_i m hm
        rcases hup : updF d (dictSet dm d m) with _ | dm1
        · rw [hup, foldl_updStep_none] at h
          exact absurd h (by simp)
        · rw [hup] at h
          exact keysMono_trans (keysMono_dictSet dm d m)
            (keysMono_trans (hF d _ dm1 hup) (ih dm1 dm' h))

theorem foldl_updStep_pres (updF : String → List (String × String) →
      Option (List (String × String))) (debian : String)
    (inst : String → Prop)
    (hF : ∀ d dm dm' p v, updF d dm = some dm' → inst p →
      List.lookup p dm = some v → List.lookup p dm' = some v) :
    ∀ (deps : List String) (dm dm' : List (String × String)) (p : String)
      (v : String),
      deps.foldl (fun acc d => updStep updF debian acc d) (some dm) =
        some dm' → inst p → List.lookup p dm = some v →
      List.lookup p dm' = some v := by
  intro deps
  induction deps with
  | nil =>
    intro dm dm' p v h _ hv
    simp only [List.foldl_nil, Option.some.injEq] at h
    subst h
    exact hv
  | cons d rest ih =>
    intro dm dm' p v h hinst hv
    rw [List.foldl_cons] at h
    rw [updStep] at h
    split at h
    · exact ih dm dm' p v h hinst hv
    · split at h
      · rw [foldl_updStep_none] at h
        exact absurd h (by simp)
      · rename_i hnod hx m hm
        have hpd : p ≠ d := by
          intro hcontra
          rw [hcontra] at hv
          rw [hv] at hnod
          simp at hnod
        have hv1 : List.lookup p (dictSet dm d m) = some v := by
          rw [lookup_dictSet_ne _ _ hpd]
          exact hv
        rcases hup : updF d (dictSet dm d m) with _ | dm1
        · rw [hup, foldl_updStep_none] at h
          exact absurd h (by simp)
        · rw [hup] at h
          exact ih dm1 dm' p v h hinst (hF d _ dm1 p v hup hinst hv1)

theorem foldl_updStep_some (mf : PackageManifest)
    (updF : String → List (String × String) →
      Option (List (String × String))) (debian : String) (B : Nat)
    (hFmono : ∀ d dm dm', updF d dm = some dm' → KeysMono dm dm')
    (hFsome : ∀ d dm, (List.lookup d dm).isSome = true →
      countMissing mf dm < B → (updF d dm).isSome = true) :
    ∀ (deps : List String) (dm : List (String × String)),
      (List.lookup debian dm).isSome = true →
      (∀ d ∈ deps, d ∈ depNames mf) → countMissing mf dm ≤ B →
      (deps.foldl (fun acc d => updStep updF debian acc d)
        (some dm)).isSome = true := by
  intro deps
  induction deps with
  | nil =>
    intro dm _ _ _
    rfl
  | cons d rest ih =>
    intro dm hdeb hsub hcm
    rw [List.foldl_cons, updStep]
    split
    · exact ih dm hdeb (fun x hx => hsub x (List.mem_cons_of_mem _ hx)) hcm
    · rename_i hnod
      have hnone : List.lookup d dm = none := by
        rcases hdm0 : List.lookup d dm with _ | x
        · rfl
        · rw [hdm0] at hnod
          simp at hnod
      rcases hdm : List.lookup debian dm with _ | m
      · rw [hdm] at hdeb
        simp at hdeb
      · dsimp only
        have hdd : d ∈ depNames mf := hsub d (List.mem_cons_self _ _)
        have hlt : countMissing mf (dictSet dm d m) < B :=
          Nat.lt_of_lt_of_le (countMissing_strict m hdd hnone) hcm
        have hsome := hFsome d (dictSet dm d m)
          (by rw [lookup_dictSet_self]; rfl) hlt
        rcases hup : updF d (dictSet dm d m) with _ | dm1
        · rw [hup] at hsome
          simp at hsome
        · have hmono := hFmono d _ dm1 hup
          exact ih dm1
            (hmono debian (keysMono_dictSet dm d m debian hdeb))
            (fun x hx => hsub x (List.mem_cons_of_mem _ hx))
            (Nat.le_trans (countMissing_anti hmono)
              (Nat.le_of_lt hlt))

end BuildFS

namespace BuildFS

theorem mem_depNames_of_depends {mf : PackageManifest} {nm : String}
    {info : PackageInfo} (hmem : (nm, info) ∈ mf.installed_packages)
    {s : String} (hs : info.depends = some s) :
    ∀ d ∈ parseDepends s, d ∈ depNames mf := by
  intro d hd
  have key : ∀ (l : List (String × PackageInfo)), (nm, info) ∈ l →
      d ∈ l.foldr (fun p acc =>
        (match p.2.depends with
         | none => []
         | some s => parseDepends s) ++ acc) [] := by
    intro l hl
    induction l with
    | nil => simp at hl
    | cons q rest ih =>
      rw [List.foldr_cons]
      rcases List.mem_cons.mp hl with rfl | hl'
      · apply List.mem_append_left
        dsimp only
        rw [hs]
        exact hd
      · exact List.mem_append_right _ (ih hl')
  exact key mf.installed_packages hmem

theorem subset_depNames {mf : PackageManifest} {debian : String}
    {info : PackageInfo}
    (hl : List.lookup debian mf.installed_packages = some info)
    {s : String} (hs : info.depends = some s) :
    ∀ d ∈ parseDepends s, d ∈ depNames mf :=
  mem_depNames_of_depends (lookup_mem_of_eq_some hl) hs

theorem upd_mono (mf : PackageManifest) :
    ∀ (fuel : Nat) (debian : String) (dm dm' : List (String × String)),
      updateDependsModule mf fuel debian dm = some dm' → KeysMono dm dm' := by
  intro fuel
  induction fuel with
  | zero =>
    intro debian dm dm' h
    exact absurd h (by simp [updateDependsModule])
  | succ fuel' ih =>
    intro debian dm dm' h
    rw [updateDependsModule] at h
    split at h
    · simp only [Option.some.injEq] at h
      subst h
      exact keysMono_dictSet dm debian "unknown"
    · split at h
      · simp only [Option.some.injEq] at h
        subst h
        exact keysMono_refl dm
      · exact foldl_updStep_mono _ debian
          (fun d dm1 dm2 hd => ih d dm1 dm2 hd) _ dm dm' h

theorem upd_pres (mf : PackageManifest) :
    ∀ (fuel : Nat) (debian : String) (dm dm' : List (String × String))
      (p v : String),
      (List.lookup p mf.installed_packages).isSome = true →
      updateDependsModule mf fuel debian dm = some dm' →
      List.lookup p dm = some v → List.lookup p dm' = some v := by
  intro fuel
  induction fuel with
  | zero =>
    intro debian dm dm' p v _ h _
    exact absurd h (by simp [updateDependsModule])
  | succ fuel' ih =>
    intro debian dm dm' p v hinst h hv
    rw [updateDependsModule] at h
    split at h
    · rename_i hx hnone
      simp only [Option.some.injEq] at h
      subst h
      have hpd : p ≠ debian := by
        intro hc
        rw [hc] at hinst
        rw [hnone] at hinst
        simp at hinst
      rw [lookup_dictSet_ne _ _ hpd]
      exact hv
    · split at h
      · simp only [Option.some.injEq] at h
        subst h
        exact hv
      · exact foldl_updStep_pres _ debian
          (fun q => (List.lookup q mf.installed_packages).isSome = true)
          (fun d dm1 dm2 q w hd hq hw => ih d dm1 dm2 q w hq hd hw)
          _ dm dm' p v h hinst hv

theorem upd_some (mf : PackageManifest) :
    ∀ (fuel : Nat) (debian : String) (dm : List (String × String)),
      (List.lookup debian dm).isSome = true →
      countMissing mf dm < fuel →
      (updateDependsModule mf fuel debian dm).isSome = true := by
  intro fuel
  induction fuel with
  | zero =>
    intro debian dm _ hcm
    exact absurd hcm (by simp)
  | succ fuel' ih =>
    intro debian dm hdeb hcm
    rw [updateDependsModule]
    split
    · rfl
    · split
      · rfl
      · rename_i hx info hinfo hy s hdep
        exact foldl_updStep_some mf _ debian fuel'
          (fun d dm1 dm2 hd => upd_mono mf fuel' d dm1 dm2 hd)
          (fun d dm1 hd hcm1 => ih d dm1 hd hcm1)
          _ dm hdeb (subset_depNames hinfo hdep)
          (Nat.lt_succ_iff.mp hcm)

end BuildFS

namespace BuildFS

theorem foldlM_upd_isSome (mf : PackageManifest) :
    ∀ (keys : List String) (dm : List (String × String)),
      (∀ d ∈ keys, (List.lookup d dm).isSome = true) →
      (keys.foldlM
        (fun dm d => updateDependsModule mf (attributionFuel mf) d dm)
        dm).isSome = true := by
  intro keys
  induction keys with
  | nil =>
    intro dm _
    rfl
  | cons d rest ih =>
    intro dm hk
    rw [List.foldlM_cons]
    have h1 : (updateDependsModule mf (attributionFuel mf) d dm).isSome =
        true :=
      upd_some mf _ d dm (hk d (List.mem_cons_self _ _))
        (Nat.lt_of_le_of_lt (countMissing_le_length mf dm)
          (Nat.lt_succ_self _))
    rcases hup : updateDependsModule mf (attributionFuel mf) d dm
        with _ | dm1
    · rw [hup] at h1
      simp at h1
    · have hmono := upd_mono mf (attributionFuel mf) d dm dm1 hup
      exact ih dm1 (fun x hx => hmono x (hk x (List.mem_cons_of_mem _ hx)))

theorem foldlM_upd_pres (mf : PackageManifest) :
    ∀ (keys : List String) (dm dm' : List (String × String)) (p v : String),
      (List.lookup p mf.installed_packages).isSome = true →
      keys.foldlM
        (fun dm d => updateDependsModule mf (attributionFuel mf) d dm)
        dm = some dm' →
      List.lookup p dm = some v → List.lookup p dm' = some v := by
  intro keys
  induction keys with
  | nil =>
    intro dm dm' p v _ h hv
    have h' : dm = dm' := by simpa using h
    subst h'
    exact hv
  | cons d rest ih =>
    intro dm dm' p v hinst h hv
    rw [List.foldlM_cons] at h
    rcases hup : updateDependsModule mf (attributionFuel mf) d dm
        with _ | dm1
    · rw [hup] at h
      simp at h
    · rw [hup] at h
      exact ih dm1 dm' p v hinst h
        (upd_pres mf _ d dm dm1 p v hinst hup hv)

theorem attributionPhase1_isSome (mf : PackageManifest)
    (seeds : List (String × String)) :
    (attributionPhase1 mf seeds).isSome = true := by
  unfold attributionPhase1
  exact foldlM_upd_isSome mf (seeds.map Prod.fst) seeds
    (fun d hd => lookup_isSome_of_mem_keys hd)

theorem phase2_go_pres (mf : PackageManifest) (ub : Bool) :
    ∀ (l : List (String × PackageInfo)) (dm : List (String × String))
      (p v : String),
      List.lookup p dm = some v →
      List.lookup p (l.foldl (fun dm q =>
        if ub && mf.base_packages.contains q.1 then dm
        else if (List.lookup q.1 dm).isSome then dm
        else dictSet dm q.1 "unknown") dm) = some v := by
  intro l
  induction l with
  | nil =>
    intro dm p v hv
    exact hv
  | cons q rest ih =>
    intro dm p v hv
    rw [List.foldl_cons]
    apply ih
    split
    · exact hv
    · split
      · exact hv
      · rename_i hq
        have hpq : p ≠ q.1 := by
          intro hc
          rw [hc] at hv
          rw [hv] at hq
          simp at hq
        rw [lookup_dictSet_ne _ _ hpq]
        exact hv

theorem phase2_go_unknown (mf : PackageManifest) (ub : Bool) :
    ∀ (l : List (String × PackageInfo)) (dm : List (String × String))
      (nm : String) (info : PackageInfo),
      (nm, info) ∈ l →
      (ub && mf.base_packages.contains nm) = false →
      List.lookup nm dm = none →
      List.lookup nm (l.foldl (fun dm q =>
        if ub && mf.base_packages.contains q.1 then dm
        else if (List.lookup q.1 dm).isSome then dm
        else dictSet dm q.1 "unknown") dm) = some "unknown" := by
  intro l
  induction l with
  | nil =>
    intro dm nm info hmem
    simp at hmem
  | cons q rest ih =>
    intro dm nm info hmem hb hn
    rw [List.foldl_cons]
    by_cases hqn : q.1 = nm
    · have hstep : (if ub && mf.base_packages.contains q.1 then dm
          else if (List.lookup q.1 dm).isSome then dm
          else dictSet dm q.1 "unknown") = dictSet dm nm "unknown" := by
        rw [hqn]
        rw [if_neg (by rw [hb]; simp), if_neg (by rw [hn]; simp)]
      rw [hstep]
      exact phase2_go_pres mf ub rest (dictSet dm nm "unknown") nm "unknown"
        (lookup_dictSet_self dm nm "unknown")
    · rcases List.mem_cons.mp hmem with heq | hmem'
      · exfalso
        apply hqn
        rw [← heq]
      · have hstep : List.lookup nm
            (if ub && mf.base_packages.contains q.1 then dm
             else if (List.lookup q.1 dm).isSome then dm
             else dictSet dm q.1 "unknown") = none := by
          split
          · exact hn
          · split
            · exact hn
            · rw [lookup_dictSet_ne _ _ (fun hc => hqn hc.symm)]
              exact hn
        exact ih _ nm info hmem' hb hstep

theorem attributionPhase2_pres (mf : PackageManifest) (ub : Bool)
    (dm : List (String × String)) (p v : String)
    (hv : List.lookup p dm = some v) :
    List.lookup p (attributionPhase2 mf ub dm) = some v := by
  unfold attributionPhase2
  exact phase2_go_pres mf ub mf.installed_packages dm p v hv

theorem attributionPhase2_unknown (mf : PackageManifest) (ub : Bool)
    (dm : List (String × String)) (nm : String) (info : PackageInfo)
    (hmem : (nm, info) ∈ mf.installed_packages)
    (hb : (ub && mf.base_packages.contains nm) = false)
    (hn : List.lookup nm dm = none) :
    List.lookup nm (attributionPhase2 mf ub dm) = some "unknown" := by
  unfold attributionPhase2
  exact phase2_go_unknown mf ub mf.installed_packages dm nm info hmem hb hn

end BuildFS

namespace BuildFS

/-- The spec's closure example: `A` depends on `B` and `C`, `B` has no
dependencies, `C` depends on `D` (with a version constraint), and all
four packages are installed. -/
def mfChain : PackageManifest :=
  ⟨[("A", ⟨some 10, [], some "B, C"⟩),
    ("B", ⟨some 10, [], none⟩),
    ("C", ⟨some 10, [], some "D (>= 1.0)"⟩),
    ("D", ⟨some 10, [], none⟩)], []⟩

/-- The spec's cyclic example: `A` and `B` depend on each other. -/
def mfCycle : PackageManifest :=
  ⟨[("A", ⟨some 1, [], some "B"⟩),
    ("B", ⟨some 1, [], some "A"⟩)], []⟩

/-- A manifest whose installed package `A` depends on a package `B` that
is not itself installed. -/
def mfBad : PackageManifest :=
  ⟨[("A", ⟨some 1, [], some "B"⟩)], []⟩

/-- **C3** (counterexample): with `A` installed and depending on the
uninstalled package `B`, and `A` seeded to module `"core"`, the
dependency `B` — reachable from the seed — ends the run assigned
`"unknown"`, not the seed's module `"core"`: the recursive call on `B`
finds it absent from `installed_packages` and overwrites the assignment
the dependency loop just gave it, so "a dependency inherits its
dependent's module" and "an assigned package is never reassigned" both
fail for dependencies outside `installed_packages`. The second conjunct
isolates the reassignment step itself: `updateDependsModule` on `B`,
with `B` already assigned `"core"`, rewrites it to `"unknown"`. -/
theorem C3_counterexample_uninstalled_dependency_reassigned :
    processDebianPackageManifest mfBad false [("A", "core")] =
      some [("A", "core"), ("B", "unknown")] ∧
    updateDependsModule mfBad 1 "B" [("A", "core"), ("B", "core")] =
      some [("A", "core"), ("B", "unknown")] := by
  exact ⟨by decide, by decide⟩

set_option maxHeartbeats 1000000 in
/-- **C3** (amended): dependency attribution (1) terminates on every
manifest and seed map, cyclic dependency graphs included; (2) never
reassigns an *installed* package that already has a seed assignment;
(3) defaults every installed, non-base-inherited package left
unassigned after the traversal to module `"unknown"`; and (4,5) on the
spec's concrete examples — `A(B, C)`, `B`, `C(D)` all installed with
`A` seeded to `"core"`, and the two-cycle `A ↔ B` — it resolves `B`,
`C`, `D` to `"core"` and terminates on the cycle. (The unrestricted
claims "every reachable package inherits the seed's module" and "an
assigned package is never reassigned" fail for dependencies absent
from `installed_packages`; see the counterexample.) -/
theorem C3_attribution_terminates_inherits_and_defaults :
    (∀ (mf : PackageManifest) (ub : Bool)
      (seeds : List (String × String)),
      (processDebianPackageManifest mf ub seeds).isSome = true) ∧
    (∀ (mf : PackageManifest) (ub : Bool)
      (seeds dm' : List (String × String)) (p v : String),
      (List.lookup p mf.installed_packages).isSome = true →
      List.lookup p seeds = some v →
      processDebianPackageManifest mf ub seeds = some dm' →
      List.lookup p dm' = some v) ∧
    (∀ (mf : PackageManifest) (ub : Bool) (dm : List (String × String))
      (nm : String) (info : PackageInfo),
      (nm, info) ∈ mf.installed_packages →
      (ub && mf.base_packages.contains nm) = false →
      List.lookup nm dm = none →
      List.lookup nm (attributionPhase2 mf ub dm) = some "unknown") ∧
    processDebianPackageManifest mfChain false [("A", "core")] =
      some [("A", "core"), ("B", "core"), ("C", "core"), ("D", "core")] ∧
    processDebianPackageManifest mfCycle false [("A", "core")] =
      some [("A", "core"), ("B", "core")] := by
  refine ⟨?_, ?_, ?_, by decide, by decide⟩
  · intro mf ub seeds
    unfold processDebianPackageManifest
    rcases h1 : attributionPhase1 mf seeds with _ | dm1
    · have := attributionPhase1_isSome mf seeds
      rw [h1] at this
      simp at this
    · rfl
  · intro mf ub seeds dm' p v hinst hv h
    unfold processDebianPackageManifest at h
    rcases h1 : attributionPhase1 mf seeds with _ | dm1
    · rw [h1] at h
      simp at h
    · rw [h1] at h
      simp only [Option.map_some', Option.some.injEq] at h
      subst h
      apply attributionPhase2_pres
      have h1' := h1
      unfold attributionPhase1 at h1'
      exact foldlM_upd_pres mf (seeds.map Prod.fst) seeds dm1 p v hinst
        h1' hv
  · intro mf ub dm nm info hmem hb hn
    exact attributionPhase2_unknown mf ub dm nm info hmem hb hn

/-- Witness for C3 (amended) hypotheses: on the chain example, the
seeded installed package `A` keeps its module `"core"` in the final
map, and an unassigned installed package defaults to `"unknown"` in
phase 2. -/
theorem C3_witness :
    List.lookup "A"
      [("A", "core"), ("B", "core"), ("C", "core"), ("D", "core")] =
      some "core" ∧
    List.lookup "A" (attributionPhase2 mfChain false []) =
      some "unknown" :=
  ⟨C3_attribution_terminates_inherits_and_defaults.2.1 mfChain false
      [("A", "core")]
      [("A", "core"), ("B", "core"), ("C", "core"), ("D", "core")]
      "A" "core" (by decide) rfl (by decide),
    C3_attribution_terminates_inherits_and_defaults.2.2.1 mfChain false
      [] "A" ⟨some 10, [], some "B, C"⟩ (by decide) rfl rfl⟩

end BuildFS
